import Mathlib

/-!
gopgsql: a connection pool behind a circuit breaker.

A shallow embedding of `gopgsql.go`.

* Go `int64` and `time.Duration` values are integers; the arithmetic that can
  leave the 64-bit range goes through `wrap64`.
* Go `float64` is `F64`: the rationals (which contain every finite double), the
  two infinities and NaN.  The source only compares the value with `0.0` and
  `1.0`, so no rounding is involved.
* A Go `error` is `Option String`: `none` is `nil`, `some m` an error whose
  message is `m`.
* A buffered channel is `Chan`; an operation that may block forever or panic
  returns an `Outcome`.
* The circuit breaker (`github.com/rubyist/circuitbreaker`) and the database
  driver are collaborators whose code is not part of the repository.  The pool
  is written against an arbitrary `Breaker` and an arbitrary `Provider`.
* Everything the pool cannot decide is read from the `World`: how long each
  breaker-wrapped function takes (against the timeout of `cb.Call`), how far
  the goroutine of `subscribe` gets with the events of the breaker (they wait
  in `pending` until it handles them, so the status can lag behind the
  breaker), and the largest channel the runtime grants.
* The pool is used from one thread of control; within one call the goroutine of
  `subscribe` runs at the breaker operations, and the clock reads the same
  second, `now`, throughout.
-/

namespace Gopgsql

/-! ## Machine values -/

/-- Two's-complement reduction of an integer to the `int64` range. -/
def wrap64 (i : Int) : Int :=
  (i + 9223372036854775808) % 18446744073709551616 - 9223372036854775808

/-- Go `float64` values, as far as comparison can tell them apart. -/
inductive F64 where
  | nan
  | negInf
  | posInf
  | fin (q : ℚ)
  deriving DecidableEq

/-- The `<` of Go on `float64`: false as soon as an operand is NaN. -/
def F64.lt : F64 → F64 → Bool
  | .nan, _ => false
  | _, .nan => false
  | .negInf, .negInf => false
  | .negInf, _ => true
  | _, .negInf => false
  | .posInf, _ => false
  | .fin _, .posInf => true
  | .fin a, .fin b => decide (a < b)

/-- The `>` of Go on `float64`. -/
def F64.gt (a b : F64) : Bool := F64.lt b a

/-- The `>=` of Go on `float64`: false as soon as an operand is NaN. -/
def F64.ge : F64 → F64 → Bool
  | .nan, _ => false
  | _, .nan => false
  | _, .negInf => true
  | .negInf, _ => false
  | .posInf, _ => true
  | .fin _, .posInf => false
  | .fin a, .fin b => decide (b ≤ a)

/-- The value lies in the closed interval from 0 to 1. -/
def F64.inUnit : F64 → Prop
  | .fin q => 0 ≤ q ∧ q ≤ 1
  | _ => False

/-- One second, in nanoseconds: `time.Second`. -/
def Second : Int := 1000000000

/-! ## Status strings -/

/-- Status of the pool while the breaker has been reset: `var Regenerate`. -/
def Regenerate : String := "regenerate"

/-- Status of a working pool: `var Success`. -/
def Success : String := "success"

/-- Status of a failed pool: `var Fail`. -/
def Fail : String := "fail"

/-! ## Configuration -/

/-- Connection options: `type PgOptions struct`. -/
structure PgOptions where
  Url : String
  Host : String
  User : String
  Pass : String
  Dbas : String
  Poolsize : Int
  FailRate : F64
  Universe : Int
  TimeOut : Int
  Regenerate : Int
  deriving DecidableEq

/-- The function `configValidate`, with `env` the value of
`os.Getenv("DATABASE_URL")`.  It returns the options it leaves behind its
pointer argument; each field is a local of its own until the record is rebuilt
at the end, in the order of the source's assignments. -/
def configValidate (env : String) (options : PgOptions) : PgOptions :=
  let urlConnect : String := ""
  let urlConnect :=
    if options.Host ≠ "" then
      "user=" ++ options.User ++ " dbname=" ++ options.Dbas ++ " host=" ++ options.Host
        ++ " password=" ++ options.Pass
    else urlConnect
  let urlConnect := if options.Url ≠ "" ∧ urlConnect = "" then options.Url else urlConnect
  let urlConnect := if urlConnect = "" then env else urlConnect
  let failRate := if F64.lt options.FailRate (.fin 0) then .fin 0 else options.FailRate
  let failRate := if F64.gt failRate (.fin 1) then .fin 1 else failRate
  let poolsize := if options.Poolsize ≤ 0 then 5 else options.Poolsize
  let univ := if options.Universe ≤ poolsize then poolsize else options.Universe
  let timeOut := if options.TimeOut < 0 then 0 else options.TimeOut
  let regenerate := if options.Regenerate ≤ 0 then Second * 3 else options.Regenerate
  { options with
    Url := urlConnect, FailRate := failRate, Poolsize := poolsize, Universe := univ,
    TimeOut := timeOut, Regenerate := regenerate }

/-! ## Blocking and panicking operations -/

/-- How a Go operation ends: it returns, it blocks forever, or it panics. -/
inductive Outcome (α : Type) where
  | ok (a : α)
  | blocks
  | panics
  deriving DecidableEq

/-- A database handle, `*sql.DB`, when it is not nil. -/
abbrev Conn := Nat

/-- A buffered channel of `*sql.DB`; `none` in the buffer is a nil pointer. -/
structure Chan where
  buf : List (Option Conn)
  cap : Int
  closed : Bool
  deriving DecidableEq

/-- The expression `make(chan *sql.DB, size)`: it panics on a negative size and
on a size beyond `limit`, the largest buffer the runtime grants
(`makechan: size out of range`). -/
def Chan.make (limit size : Int) : Outcome Chan :=
  if size < 0 ∨ limit < size then .panics
  else .ok { buf := [], cap := size, closed := false }

/-- The statement `ch <- x`: panics on a closed channel, blocks on a full one. -/
def Chan.send (ch : Chan) (x : Option Conn) : Outcome Chan :=
  if ch.closed then .panics
  else if ch.cap ≤ (ch.buf.length : Int) then .blocks
  else .ok { ch with buf := ch.buf ++ [x] }

/-- The expression `<-ch`: the oldest element; on an empty channel it blocks,
or yields nil when the channel is closed. -/
def Chan.recv (ch : Chan) : Outcome (Option Conn × Chan) :=
  match ch.buf with
  | x :: rest => .ok (x, { ch with buf := rest })
  | [] => if ch.closed then .ok (none, ch) else .blocks

/-- The statement `close(ch)`: panics on a channel that is already closed. -/
def Chan.close (ch : Chan) : Outcome Chan :=
  if ch.closed then .panics else .ok { ch with closed := true }

/-! ## Collaborators -/

/-- The events of the breaker: `circuit.BreakerEvent`. -/
inductive BreakerEvent where
  | BreakerTripped
  | BreakerReset
  | BreakerFail
  | BreakerReady
  deriving DecidableEq

/-- The operations of `*circuit.Breaker` that the pool relies on, over a breaker
state `β`.  Each operation returns the new breaker state and the events it
sends to its subscribers. `Ready` is the admission test that `Call` runs first;
`Success` and `Fail` are what `Call` reports once the wrapped function is back. -/
structure Breaker (β : Type) where
  NewRateBreaker : F64 → Int → β
  Tripped : β → Bool
  Ready : β → Bool × β × List BreakerEvent
  Success : β → β × List BreakerEvent
  Fail : β → β × List BreakerEvent
  Trip : β → β × List BreakerEvent
  Reset : β → β × List BreakerEvent

/-- The error of a call refused by the breaker: `circuit.ErrBreakerOpen`. -/
def ErrBreakerOpen : String := "breaker open"

/-- The error of a call that outlasts its timeout: `circuit.ErrBreakerTimeout`. -/
def ErrBreakerTimeout : String := "breaker time out"

/-- What `cb.Call` leaves behind: the error it returns, the breaker, the events
sent, and the state the wrapped function worked on. -/
structure CallResult (β σ : Type) where
  err : Option String
  cb : β
  events : List BreakerEvent
  st : σ

/-- The method `cb.Call(circuit, timeout)`, for a function that takes `took`
nanoseconds.  A refused call does not run the function.  An admitted call
waits for the function when the timeout is 0 or the function returns before
the timeout runs out, and reports its error with `Fail`, its success with
`Success`; otherwise it stops waiting, reports a `Fail` and returns the
timeout error, and the caller goes on in the state `early`, in which the
function has been started and has assigned nothing yet. -/
def Breaker.Call {β σ : Type} (B : Breaker β) (b : β) (timeout : Int) (took : Nat)
    (circuit : σ → Option String × σ) (early : σ → σ) (s : σ) : CallResult β σ :=
  match B.Ready b with
  | (false, b1, ev1) => { err := some ErrBreakerOpen, cb := b1, events := ev1, st := s }
  | (true, b1, ev1) =>
    if timeout ≠ 0 ∧ timeout ≤ (took : Int) then
      { err := some ErrBreakerTimeout, cb := (B.Fail b1).1, events := ev1 ++ (B.Fail b1).2,
        st := early s }
    else
      match circuit s with
      | (none, s1) =>
        { err := none, cb := (B.Success b1).1, events := ev1 ++ (B.Success b1).2, st := s1 }
      | (some e, s1) =>
        { err := some e, cb := (B.Fail b1).1, events := ev1 ++ (B.Fail b1).2, st := s1 }

/-- What one `sql.Open` followed by `Ping` does. -/
inductive Attempt where
  | openError (e : String)
  | pingError (c : Conn) (e : String)
  | live (c : Conn)
  deriving DecidableEq

/-- The database driver: the result of the n-th open of a URL. -/
abbrev Provider := String → Nat → Attempt

/-- The world outside the pool: how many opens the driver has served, the
handles closed so far, the handles the callbacks were invoked on, the
nanoseconds that the coming breaker-wrapped functions take (none at all once
the list is used up), the number of pending events that the goroutine of
`subscribe` handles at each of the coming breaker operations (all of them once
the list is used up), and the largest channel the runtime grants. -/
structure World where
  opened : Nat
  closedConns : List Conn
  invoked : List Conn
  took : List Nat
  sched : List Nat
  chanLimit : Int
  deriving DecidableEq

/-- The time the next breaker-wrapped function takes. -/
def World.nextTook (w : World) : Nat := w.took.headD 0

/-! ## The pool -/

/-- The pool: `type PgPool struct`, together with the events that the breaker
has sent and the goroutine of `subscribe` has not handled yet. -/
structure PgPool (β : Type) where
  cb : β
  conn : Chan
  state : String
  trippedAt : Int
  failCount : Int
  regenTryes : Int
  Configs : PgOptions
  pending : List BreakerEvent
  deriving DecidableEq

/-- The method `State`. -/
def PgPool.State {β : Type} (pool : PgPool β) : String := pool.state

/-- The method `GetUrl`. -/
def PgPool.GetUrl {β : Type} (pool : PgPool β) : String := pool.Configs.Url

/-- One step of the goroutine of `subscribe`: the `switch` on the event. -/
def listenStep (state : String) : BreakerEvent → String
  | .BreakerTripped => Fail
  | .BreakerReset => Regenerate
  | .BreakerFail => state
  | .BreakerReady => Success

/-- The goroutine of `subscribe` over a run of events. -/
def listen (state : String) (events : List BreakerEvent) : String :=
  events.foldl listenStep state

/-- The goroutine of `subscribe` handles the `k` oldest pending events. -/
def PgPool.listener {β : Type} (k : Nat) (pool : PgPool β) : PgPool β :=
  { pool with state := listen pool.state (pool.pending.take k),
              pending := pool.pending.drop k }

/-- A breaker operation on the pool: the breaker is replaced, its events join
the pending ones, and the goroutine of `subscribe` handles as many pending
events as the world lets it. -/
def PgPool.emit {β : Type} (pool : PgPool β) (r : β × List BreakerEvent) (w : World) :
    PgPool β × World :=
  match w.sched with
  | [] =>
    (PgPool.listener (pool.pending ++ r.2).length
      { pool with cb := r.1, pending := pool.pending ++ r.2 }, w)
  | k :: rest =>
    (PgPool.listener k { pool with cb := r.1, pending := pool.pending ++ r.2 },
      { w with sched := rest })

/-- The method `setTrippedTime`, with `now` the reading of `time.Now().Unix()`. -/
def setTrippedTime {β : Type} (now : Int) (pool : PgPool β) : PgPool β :=
  if pool.trippedAt = 0 then { pool with trippedAt := now } else pool

/-- The function handed to `cb.Call` by `connect`: it opens and pings, and
stores the handle in `db` on success. -/
def connectCircuit (provider : Provider) (url : String) (s : Option Conn × World) :
    Option String × (Option Conn × World) :=
  match provider url s.2.opened with
  | .openError e => (some e, (s.1, { s.2 with opened := s.2.opened + 1, took := s.2.took.tail }))
  | .pingError _ e =>
    (some e, (s.1, { s.2 with opened := s.2.opened + 1, took := s.2.took.tail }))
  | .live c => (none, (some c, { s.2 with opened := s.2.opened + 1, took := s.2.took.tail }))

/-- What `connect` sees when `cb.Call` stops waiting: the open is under way and
`db` is still nil. -/
def connectEarly (s : Option Conn × World) : Option Conn × World :=
  (s.1, { s.2 with opened := s.2.opened + 1, took := s.2.took.tail })

/-- The method `connect`: the handle, the error, and the pool and world after it. -/
def connect {β : Type} (B : Breaker β) (provider : Provider) (pool : PgPool β) (w : World) :
    (Option Conn × Option String) × PgPool β × World :=
  if pool.Configs.Url = "" then ((none, some "can't find url"), pool, w)
  else if B.Tripped pool.cb then ((none, some "unavailable service"), pool, w)
  else
    let r := B.Call pool.cb pool.Configs.TimeOut w.nextTook
      (connectCircuit provider pool.Configs.Url) connectEarly (none, w)
    ((r.st.1, r.err), pool.emit (r.cb, r.events) r.st.2)

/-- The loop of `generatePool`, `n` iterations from its end.  It returns the
error of an early `return`, or `none` when the loop runs to its end. -/
def generateLoop {β : Type} (B : Breaker β) (provider : Provider) (failFirst : Bool)
    (now : Int) : Nat → PgPool β → World → Outcome (Option String × PgPool β × World)
  | 0, pool, w => .ok (none, pool, w)
  | n + 1, pool, w =>
    match connect B provider pool w with
    | ((conn, some e), pool1, w1) =>
      if failFirst then .ok (some e, setTrippedTime now pool1, w1)
      else
        match pool1.conn.send conn with
        | .ok ch =>
          generateLoop B provider failFirst now n
            { pool1 with failCount := wrap64 (pool1.failCount + 1), conn := ch } w1
        | .blocks => .blocks
        | .panics => .panics
    | ((conn, none), pool1, w1) =>
      match pool1.conn.send conn with
      | .ok ch => generateLoop B provider failFirst now n { pool1 with conn := ch } w1
      | .blocks => .blocks
      | .panics => .panics

/-- The function `generatePool`. -/
def generatePool {β : Type} (B : Breaker β) (provider : Provider) (failFirst : Bool)
    (now : Int) (pool : PgPool β) (w : World) : Outcome (Option String × PgPool β × World) :=
  match Chan.make w.chanLimit pool.Configs.Poolsize with
  | .blocks => .blocks
  | .panics => .panics
  | .ok ch =>
    match generateLoop B provider failFirst now pool.Configs.Poolsize.toNat
        { pool with conn := ch } w with
    | .blocks => .blocks
    | .panics => .panics
    | .ok (some e, pool1, w1) => .ok (some e, pool1, w1)
    | .ok (none, pool1, w1) =>
      if B.Tripped pool1.cb then
        .ok (some "failed to create connection pool", setTrippedTime now pool1, w1)
      else .ok (none, { pool1 with state := Success }, w1)

/-- The loop of `clean`, `n` iterations from its end: every slot is received
and a handle that is not nil is closed. -/
def cleanLoop : Nat → Chan → World → Outcome (Chan × World)
  | 0, ch, w => .ok (ch, w)
  | n + 1, ch, w =>
    match ch.recv with
    | .ok (some aux, ch1) => cleanLoop n ch1 { w with closedConns := w.closedConns ++ [aux] }
    | .ok (none, ch1) => cleanLoop n ch1 w
    | .blocks => .blocks
    | .panics => .panics

/-- The method `clean`. -/
def clean {β : Type} (pool : PgPool β) (w : World) : Outcome (PgPool β × World) :=
  match (if pool.regenTryes = 0 then cleanLoop pool.Configs.Poolsize.toNat pool.conn w
         else .ok (pool.conn, w)) with
  | .blocks => .blocks
  | .panics => .panics
  | .ok (ch, w1) =>
    match ch.close with
    | .blocks => .blocks
    | .panics => .panics
    | .ok ch1 => .ok ({ pool with conn := ch1 }, w1)

/-- The method `reset`. -/
def reset {β : Type} (B : Breaker β) (pool : PgPool β) (w : World) :
    Outcome (PgPool β × World) :=
  match clean pool w with
  | .blocks => .blocks
  | .panics => .panics
  | .ok (pool1, w1) =>
    .ok ({ (pool1.emit (B.Reset pool1.cb) w1).1 with failCount := 0, trippedAt := 0 },
      (pool1.emit (B.Reset pool1.cb) w1).2)

/-- The seconds since the trip, as `regenerate` computes them in `int64`:
`epoch - pool.trippedAt`. -/
def diference {β : Type} (now : Int) (pool : PgPool β) : Int := wrap64 (now - pool.trippedAt)

/-- The cooldown in whole seconds, as `regenerate` computes it:
`int64(pool.Configs.Regenerate / 1000000000)`, a division that truncates. -/
def regentime {β : Type} (pool : PgPool β) : Int := Int.tdiv pool.Configs.Regenerate 1000000000

/-- The method `regenerate`, with `now` the reading of `time.Now().Unix()`. -/
def regenerate {β : Type} (B : Breaker β) (provider : Provider) (now : Int) (pool : PgPool β)
    (w : World) : Outcome (PgPool β × World) :=
  if diference now pool ≥ regentime pool ∧ pool.State = Fail then
    match reset B { pool with regenTryes := wrap64 (pool.regenTryes + 1) } w with
    | .blocks => .blocks
    | .panics => .panics
    | .ok (pool1, w1) =>
      match generatePool B provider true now pool1 w1 with
      | .blocks => .blocks
      | .panics => .panics
      | .ok (some _, pool2, w2) =>
        .ok (setTrippedTime now (pool2.emit (B.Trip pool2.cb) w2).1,
          (pool2.emit (B.Trip pool2.cb) w2).2)
      | .ok (none, pool2, w2) => .ok ({ pool2 with regenTryes := 0 }, w2)
  else .ok (pool, w)

/-- The channel of a pool that `new(PgPool)` has just allocated.  The source
leaves the field nil there, and `generatePool` replaces it by a channel of its
own before any operation touches it. -/
def Chan.unset : Chan := { buf := [], cap := 0, closed := false }

/-- The function `InitPool`: the pool and the error it returns.  The options
are copied into the pool before `configValidate` runs on the local `opts`,
whose result no later statement reads. -/
def InitPool {β : Type} (B : Breaker β) (provider : Provider) (env : String) (now : Int)
    (opts : PgOptions) (w : World) : Outcome ((PgPool β × Option String) × World) :=
  let pool : PgPool β :=
    { cb := B.NewRateBreaker opts.FailRate opts.Universe, conn := Chan.unset, state := "",
      trippedAt := 0, failCount := 0, regenTryes := 0, Configs := opts, pending := [] }
  let _opts := configValidate env opts
  match generatePool B provider false now pool w with
  | .blocks => .blocks
  | .panics => .panics
  | .ok (some e, pool1, w1) => .ok (({ pool1 with state := Fail }, some e), w1)
  | .ok (none, pool1, w1) => .ok ((pool1, none), w1)

/-- The function handed to `cb.Call` by `Execute`: it runs the callback, keeps
its error in `err`, and returns nil to the breaker. -/
def executeCircuit (callback : Conn → Option String) (c : Conn) (s : Option String × World) :
    Option String × (Option String × World) :=
  (none, (callback c, { s.2 with invoked := s.2.invoked ++ [c], took := s.2.took.tail }))

/-- What `Execute` sees when `cb.Call` stops waiting: the callback is under way
on the handle and `err` is still nil. -/
def executeEarly (c : Conn) (s : Option String × World) : Option String × World :=
  (s.1, { s.2 with invoked := s.2.invoked ++ [c], took := s.2.took.tail })

/-- The method `Execute`: the error it returns, and the pool and world after it. -/
def Execute {β : Type} (B : Breaker β) (provider : Provider) (callback : Conn → Option String)
    (now : Int) (pool : PgPool β) (w : World) : Outcome (Option String × PgPool β × World) :=
  if pool.State = Fail then
    match regenerate B provider now pool w with
    | .blocks => .blocks
    | .panics => .panics
    | .ok (pool1, w1) => .ok (some "unavailable service", pool1, w1)
  else if pool.State = Regenerate then .ok (some "unavailable service", pool, w)
  else
    match pool.conn.recv with
    | .blocks => .blocks
    | .panics => .panics
    | .ok (none, ch) =>
      .ok (some "empty connection", { pool with conn := ch }.emit (B.Fail pool.cb) w)
    | .ok (some c, ch) =>
      let r := B.Call pool.cb pool.Configs.TimeOut w.nextTook (executeCircuit callback c)
        (executeEarly c) (none, w)
      match ch.send (some c) with
      | .blocks => .blocks
      | .panics => .panics
      | .ok ch1 => .ok (r.st.1, { pool with conn := ch1 }.emit (r.cb, r.events) r.st.2)

/-! ## A reference breaker and reference drivers -/

/-- The state of the reference breaker: the trip flag, the failures and the
successes counted since the last reset, and the two parameters of
`NewRateBreaker`. -/
structure RateState where
  tripped : Bool
  failures : Nat
  successes : Nat
  rate : F64
  minSamples : Int
  deriving DecidableEq

/-- The failure rate observed so far, 0 when nothing has been observed. -/
def RateState.errorRate (s : RateState) : F64 :=
  if s.failures + s.successes = 0 then .fin 0
  else .fin ((s.failures : ℚ) / ((s.failures + s.successes : Nat) : ℚ))

/-- The trip rule of a rate breaker: enough samples and a failure rate that
reaches the threshold. -/
def RateState.shouldTrip (s : RateState) : Bool :=
  decide (s.minSamples ≤ ((s.failures + s.successes : Nat) : Int)) && F64.ge s.errorRate s.rate

/-- Modelled from the spec: the circuit breaker, an external collaborator whose
code is not under src/.  It enters a state that refuses calls once the failures
observed reach its configured rate within its sampling window; `Trip` and
`Reset` force and clear that state; an operation that changes the state sends
the matching event.  The timed recovery of the collaborator is left out. -/
def rateBreaker : Breaker RateState where
  NewRateBreaker := fun rate minSamples =>
    { tripped := false, failures := 0, successes := 0, rate := rate, minSamples := minSamples }
  Tripped := fun s => s.tripped
  Ready := fun s => (!s.tripped, s, [])
  Success := fun s => ({ s with successes := s.successes + 1 }, [])
  Fail := fun s =>
    if RateState.shouldTrip { s with failures := s.failures + 1 } then
      ({ s with failures := s.failures + 1, tripped := true },
        [.BreakerFail, .BreakerTripped])
    else ({ s with failures := s.failures + 1 }, [.BreakerFail])
  Trip := fun s => ({ s with tripped := true }, [.BreakerTripped])
  Reset := fun s => ({ s with tripped := false, failures := 0, successes := 0 }, [.BreakerReset])

/-- A driver whose every open and ping succeeds; the n-th open yields handle n. -/
def goodProvider : Provider := fun _ n => .live n

/-- A driver whose every ping fails. -/
def badProvider : Provider := fun _ n => .pingError n "connection refused"

/-- A world in which nothing has happened yet: every function returns at once,
the goroutine of `subscribe` keeps up with the breaker, and the runtime grants
channels up to the limit of a 64-bit platform. -/
def World.init : World :=
  { opened := 0, closedConns := [], invoked := [], took := [], sched := [],
    chanLimit := 35184372088820 }

/-- The zero value of `PgOptions`. -/
def PgOptions.zero : PgOptions :=
  { Url := "", Host := "", User := "", Pass := "", Dbas := "", Poolsize := 0,
    FailRate := .fin 0, Universe := 0, TimeOut := 0, Regenerate := 0 }

/-! ## Sample configurations and pools -/

/-- Options that set the URL alone, as in the test `TestEnvUrlConnetc`. -/
def optsUrlOnly : PgOptions := { PgOptions.zero with Url := "postgres://localhost/db" }

/-- Options with a URL and a failure rate of 1.5, everything else zero. -/
def optsRaw : PgOptions :=
  { PgOptions.zero with Url := "postgres://localhost/db", FailRate := .fin (3 / 2) }

/-- Options with a failure rate of -0.5, a size of 0, a universe of 4, a
timeout of -1 nanosecond and no cooldown. -/
def optsSkewed : PgOptions :=
  { PgOptions.zero with FailRate := .fin (-1 / 2), Universe := 4, TimeOut := -1 }

/-- Options with a URL and a negative size. -/
def optsNegative : PgOptions :=
  { PgOptions.zero with Url := "postgres://localhost/db", Poolsize := -1 }

/-- The configuration poolSize 3, failRate 1.0, universe 3, timeout 1s, with no
URL, no host and no `DATABASE_URL`. -/
def optsNoUrl : PgOptions :=
  { PgOptions.zero with Poolsize := 3, FailRate := .fin 1, Universe := 3, TimeOut := Second }

/-- The configuration poolSize 3, failRate 1.0, universe 3, timeout 1s, with a URL. -/
def optsScenario : PgOptions := { optsNoUrl with Url := "postgres://localhost/db" }

/-- The pool that `InitPool` returns for `optsNoUrl`: three nil slots, status
`Success`, a breaker that has seen nothing. -/
def nilPool : PgPool RateState :=
  { cb := { tripped := false, failures := 0, successes := 0, rate := .fin 1, minSamples := 3 },
    conn := { buf := [none, none, none], cap := 3, closed := false },
    state := Success, trippedAt := 0, failCount := 3, regenTryes := 0, Configs := optsNoUrl,
    pending := [] }

/-- The pool that `InitPool` returns at second 100 for `optsScenario` when every
ping fails: three nil slots, status `Fail`, a tripped breaker. -/
def failedPool : PgPool RateState :=
  { cb := { tripped := true, failures := 3, successes := 0, rate := .fin 1, minSamples := 3 },
    conn := { buf := [none, none, none], cap := 3, closed := false },
    state := Fail, trippedAt := 100, failCount := 3, regenTryes := 0, Configs := optsScenario,
    pending := [] }

/-- The pool `failedPool` with a cooldown of a second and a half. -/
def cooldownPool : PgPool RateState :=
  { failedPool with Configs := { optsScenario with Regenerate := 1500000000 } }

/-- A pool of two handles in status `Success`. -/
def readyPool : PgPool RateState :=
  { cb := { tripped := false, failures := 0, successes := 2, rate := .fin (1 / 4),
            minSamples := 4 },
    conn := { buf := [some 0, some 1], cap := 2, closed := false },
    state := Success, trippedAt := 0, failCount := 0, regenTryes := 0,
    Configs := { optsUrlOnly with Poolsize := 2, FailRate := .fin (1 / 4), Universe := 4,
                                  TimeOut := Second },
    pending := [] }

/-- Options for a pool of two behind a breaker that trips at a failure rate of
one half over two samples, with a cooldown of 3 seconds. -/
def optsFlaky : PgOptions :=
  { optsUrlOnly with Poolsize := 2, FailRate := .fin (1 / 2), Universe := 2,
                     Regenerate := 3 * Second }

/-- A driver whose second open fails its ping and whose other opens succeed. -/
def flakyProvider : Provider :=
  fun _ n => if n = 1 then .pingError n "connection refused" else .live n

/-- The pool that `InitPool` returns at second 100 for `optsFlaky` behind
`flakyProvider`: status `Fail` at the first attempt of a regeneration cycle,
with the handle 0 and a nil slot in its channel. -/
def leakPool : PgPool RateState :=
  { cb := { tripped := true, failures := 1, successes := 1, rate := .fin (1 / 2),
            minSamples := 2 },
    conn := { buf := [some 0, none], cap := 2, closed := false },
    state := Fail, trippedAt := 100, failCount := 1, regenTryes := 0, Configs := optsFlaky,
    pending := [] }

/-- The world after two opens. -/
def World.two : World := { World.init with opened := 2 }

/-- Options for a pool of three behind a breaker that trips at a failure rate of
one quarter over four samples. -/
def optsStale : PgOptions :=
  { optsUrlOnly with Poolsize := 3, FailRate := .fin (1 / 4), Universe := 4 }

/-- A driver whose first open fails its ping and whose other opens succeed. -/
def firstFailsProvider : Provider :=
  fun _ n => if n = 0 then .pingError n "connection refused" else .live n

/-- The pool that `InitPool` returns for `optsStale` behind `firstFailsProvider`:
status `Success`, a nil slot followed by the handles 1 and 2, and a breaker
that has counted one failure and two successes. -/
def mixedPool : PgPool RateState :=
  { cb := { tripped := false, failures := 1, successes := 2, rate := .fin (1 / 4),
            minSamples := 4 },
    conn := { buf := [none, some 1, some 2], cap := 3, closed := false },
    state := Success, trippedAt := 0, failCount := 1, regenTryes := 0, Configs := optsStale,
    pending := [] }

/-- The world after three opens, in which the goroutine of `subscribe` handles
none of the events of the next breaker operation. -/
def World.lagging : World := { World.init with opened := 3, sched := [0] }

/-- The world after three opens. -/
def World.three : World := { World.init with opened := 3 }

/-- The pool that `Execute` leaves when it is called on `mixedPool` in the
lagging world: the nil slot has tripped the breaker, the events of the trip
are still pending, and the status is still `Success`. -/
def stalePool : PgPool RateState :=
  { cb := { tripped := true, failures := 2, successes := 2, rate := .fin (1 / 4),
            minSamples := 4 },
    conn := { buf := [some 1, some 2], cap := 3, closed := false },
    state := Success, trippedAt := 0, failCount := 1, regenTryes := 0, Configs := optsStale,
    pending := [.BreakerFail, .BreakerTripped] }

/-! ## Invariants -/

/-- The part of the breaker's contract that a population without failures rests
on: a new breaker is not tripped; a breaker that is not tripped admits a call
and is left as it is by the admission; a success does not trip it. -/
structure Breaker.Lawful {β : Type} (B : Breaker β) : Prop where
  new_closed : ∀ rate minSamples, B.Tripped (B.NewRateBreaker rate minSamples) = false
  ready_closed : ∀ b, B.Tripped b = false → B.Ready b = (true, b, [])
  success_closed : ∀ b, B.Tripped b = false → B.Tripped (B.Success b).1 = false

/-- What holds of every pool between two calls of the API: the channel is open
and not over capacity, the size is not negative, and the attempt counter is a
non-negative `int64`. -/
structure PgPool.WellFormed {β : Type} (pool : PgPool β) : Prop where
  chanOpen : pool.conn.closed = false
  room : (pool.conn.buf.length : Int) ≤ pool.conn.cap
  size : 0 ≤ pool.Configs.Poolsize
  tryes : 0 ≤ pool.regenTryes ∧ pool.regenTryes < 9223372036854775808

/-! ## Configuration -/

theorem append_ne_empty (a b : String) (h : a ≠ "") : a ++ b ≠ "" := by
  intro hab
  apply h
  have hl : (a ++ b).length = 0 := by rw [hab]; rfl
  rw [String.length_append] at hl
  have ha : a.length = 0 := by omega
  exact String.ext (List.eq_nil_of_length_eq_zero ha)

theorem hostUrl_ne_empty (u d h p : String) :
    "user=" ++ u ++ " dbname=" ++ d ++ " host=" ++ h ++ " password=" ++ p ≠ "" := by
  repeat apply append_ne_empty
  decide

/-- C8: `configValidate` resolves `Url` by strict precedence: the key/value
string built from `User`, `Dbas`, `Host` and `Pass` when `Host` is not empty,
else the `Url` field when it is not empty, else the value of the environment
variable, whatever the lower-ranked sources hold. -/
theorem configValidate_url_precedence (env : String) (o : PgOptions) :
    (configValidate env o).Url =
      if o.Host ≠ "" then
        "user=" ++ o.User ++ " dbname=" ++ o.Dbas ++ " host=" ++ o.Host
          ++ " password=" ++ o.Pass
      else if o.Url ≠ "" then o.Url
      else env := by
  by_cases hh : o.Host = ""
  · by_cases hu : o.Url = "" <;> simp [configValidate, hh, hu]
  · have := hostUrl_ne_empty o.User o.Dbas o.Host o.Pass
    simp [configValidate, hh, this]

theorem F64.zero_not_gt_one : F64.gt (.fin 0) (.fin 1) = false := by
  simp [F64.gt, F64.lt]

theorem F64.clamp_inUnit (f : F64) (h : f ≠ .nan) :
    F64.inUnit
      (if F64.gt (if F64.lt f (.fin 0) then .fin 0 else f) (.fin 1) then .fin 1
       else (if F64.lt f (.fin 0) then .fin 0 else f)) := by
  cases f with
  | nan => exact absurd rfl h
  | negInf =>
    have h1 : F64.lt .negInf (.fin 0) = true := rfl
    simp only [h1, if_true, F64.zero_not_gt_one, Bool.false_eq_true, if_false]
    exact ⟨le_refl _, zero_le_one⟩
  | posInf =>
    have h1 : F64.lt .posInf (.fin 0) = false := rfl
    have h2 : F64.gt .posInf (.fin 1) = true := rfl
    simp only [h1, h2, if_true, Bool.false_eq_true, if_false]
    exact ⟨zero_le_one, le_refl _⟩
  | fin q =>
    have e1 : F64.lt (.fin q) (.fin 0) = decide (q < 0) := rfl
    have e2 : F64.gt (.fin q) (.fin 1) = decide (1 < q) := rfl
    by_cases h0 : q < 0
    · simp only [e1, h0, decide_True, if_true, F64.zero_not_gt_one, Bool.false_eq_true,
        if_false]
      exact ⟨le_refl _, zero_le_one⟩
    · by_cases h1 : 1 < q
      · simp only [e1, e2, h0, h1, decide_False, decide_True, if_true, Bool.false_eq_true,
          if_false]
        exact ⟨zero_le_one, le_refl _⟩
      · simp only [e1, e2, h0, h1, decide_False, Bool.false_eq_true, if_false]
        exact ⟨not_lt.mp h0, not_lt.mp h1⟩

/-- C7 (amended): for every options value whose `FailRate` is not NaN, after
`configValidate` the `FailRate` lies in [0,1] (0 when the input is below 0, 1
when it is above 1, unchanged otherwise), `Poolsize` is 5 when the input is at
most 0 and unchanged otherwise, `Universe` is the maximum of the input
`Universe` and the resulting `Poolsize`, `TimeOut` is 0 when the input is
negative and unchanged otherwise, and `Regenerate` is 3 seconds when the input
is at most 0 and unchanged otherwise. -/
theorem configValidate_clamps (env : String) (o : PgOptions) (h : o.FailRate ≠ .nan) :
    F64.inUnit (configValidate env o).FailRate
    ∧ (configValidate env o).FailRate =
        (if F64.lt o.FailRate (.fin 0) then .fin 0
         else if F64.gt o.FailRate (.fin 1) then .fin 1 else o.FailRate)
    ∧ (configValidate env o).Poolsize = (if o.Poolsize ≤ 0 then 5 else o.Poolsize)
    ∧ (configValidate env o).Universe = max o.Universe (configValidate env o).Poolsize
    ∧ (configValidate env o).TimeOut = (if o.TimeOut < 0 then 0 else o.TimeOut)
    ∧ (configValidate env o).Regenerate
        = (if o.Regenerate ≤ 0 then 3 * Second else o.Regenerate) := by
  refine ⟨F64.clamp_inUnit o.FailRate h, ?_, rfl, ?_, rfl, ?_⟩
  · show (if F64.gt (if F64.lt o.FailRate (.fin 0) then .fin 0 else o.FailRate) (.fin 1)
        then F64.fin 1 else (if F64.lt o.FailRate (.fin 0) then .fin 0 else o.FailRate)) = _
    by_cases hl : F64.lt o.FailRate (.fin 0) = true
    · simp only [hl, if_true, F64.zero_not_gt_one, Bool.false_eq_true, if_false]
    · simp only [hl, Bool.false_eq_true, if_false]
  · show (if o.Universe ≤ (if o.Poolsize ≤ 0 then 5 else o.Poolsize)
        then (if o.Poolsize ≤ 0 then 5 else o.Poolsize) else o.Universe) = _
    show _ = max o.Universe (if o.Poolsize ≤ 0 then 5 else o.Poolsize)
    split_ifs with h1 h2 <;> omega
  · show (if o.Regenerate ≤ 0 then Second * 3 else o.Regenerate) = _
    rw [mul_comm]

/-- C7, an instance: options with a failure rate of -0.5, a size of 0, a
universe of 4, a timeout of -1 and no cooldown come out with the rate in
[0,1], the size 5, the universe 5, the timeout 0 and a cooldown of 3 seconds. -/
theorem configValidate_clamps_witness :
    optsSkewed.FailRate ≠ .nan
    ∧ F64.inUnit (configValidate "" optsSkewed).FailRate
    ∧ (configValidate "" optsSkewed).Poolsize = 5
    ∧ (configValidate "" optsSkewed).Universe = 5
    ∧ (configValidate "" optsSkewed).TimeOut = 0
    ∧ (configValidate "" optsSkewed).Regenerate = 3000000000 := by
  have h := configValidate_clamps "" optsSkewed (by decide)
  exact ⟨by decide, h.1, h.2.2.1.trans (by decide), h.2.2.2.1.trans (by decide),
    h.2.2.2.2.1.trans (by decide), h.2.2.2.2.2.trans (by decide)⟩

/-- C7, refuted as stated: a NaN `FailRate` is neither below 0 nor above 1, so
`configValidate` leaves it in place, outside [0,1]. -/
theorem configValidate_nan_not_clamped :
    (configValidate "" { PgOptions.zero with FailRate := .nan }).FailRate = .nan
    ∧ ¬ F64.inUnit (configValidate "" { PgOptions.zero with FailRate := .nan }).FailRate := by
  constructor
  · rfl
  · intro h
    exact h

/-! ## Channels -/

theorem Chan.send_ok (ch : Chan) (x : Option Conn) (h1 : ch.closed = false)
    (h2 : (ch.buf.length : Int) < ch.cap) :
    ch.send x = .ok { ch with buf := ch.buf ++ [x] } := by
  unfold Chan.send
  rw [if_neg (by simp [h1]), if_neg (by omega)]

theorem Chan.make_ok (limit size : Int) (h0 : 0 ≤ size) (h1 : size ≤ limit) :
    Chan.make limit size = .ok { buf := [], cap := size, closed := false } := by
  unfold Chan.make
  rw [if_neg (by omega)]

theorem Chan.make_panics (limit size : Int) (h : size < 0 ∨ limit < size) :
    Chan.make limit size = .panics := by
  unfold Chan.make
  rw [if_pos h]

/-! ## The listener -/

/-- What a breaker operation on the pool leaves untouched. -/
theorem PgPool.emit_frame {β : Type} (pool : PgPool β) (r : β × List BreakerEvent)
    (w : World) :
    (pool.emit r w).1.conn = pool.conn
    ∧ (pool.emit r w).1.Configs = pool.Configs
    ∧ (pool.emit r w).1.regenTryes = pool.regenTryes
    ∧ (pool.emit r w).1.trippedAt = pool.trippedAt
    ∧ (pool.emit r w).1.failCount = pool.failCount
    ∧ (pool.emit r w).1.cb = r.1
    ∧ (pool.emit r w).2.closedConns = w.closedConns
    ∧ (pool.emit r w).2.invoked = w.invoked
    ∧ (pool.emit r w).2.chanLimit = w.chanLimit := by
  unfold PgPool.emit
  cases w.sched <;> exact ⟨rfl, rfl, rfl, rfl, rfl, rfl, rfl, rfl, rfl⟩

/-! ## connect -/

/-- What the call of `connect` leaves untouched, and what it answers: an error
comes without a handle, a nil error with one. -/
theorem Breaker.Call_connect {β : Type} (B : Breaker β) (b : β) (timeout : Int) (took : Nat)
    (provider : Provider) (url : String) (w : World) :
    (B.Call b timeout took (connectCircuit provider url) connectEarly (none, w)).st.2.closedConns
      = w.closedConns
    ∧ (B.Call b timeout took (connectCircuit provider url) connectEarly (none, w)).st.2.invoked
      = w.invoked
    ∧ (B.Call b timeout took (connectCircuit provider url) connectEarly (none, w)).st.2.chanLimit
      = w.chanLimit
    ∧ ((B.Call b timeout took (connectCircuit provider url) connectEarly (none, w)).err
          ≠ none →
        (B.Call b timeout took (connectCircuit provider url) connectEarly (none, w)).st.1
          = none) := by
  unfold Breaker.Call
  rcases hR : B.Ready b with ⟨ok, b1, ev1⟩
  cases ok
  · exact ⟨rfl, rfl, rfl, fun _ => rfl⟩
  · simp only
    split_ifs with ht
    · exact ⟨rfl, rfl, rfl, fun _ => rfl⟩
    · unfold connectCircuit
      cases provider url w.opened
      · exact ⟨rfl, rfl, rfl, fun _ => rfl⟩
      · exact ⟨rfl, rfl, rfl, fun _ => rfl⟩
      · exact ⟨rfl, rfl, rfl, fun h => absurd rfl h⟩

/-- What `connect` leaves untouched; an attempt that fails yields a nil handle. -/
theorem connect_frame {β : Type} (B : Breaker β) (provider : Provider) (pool : PgPool β)
    (w : World) :
    (connect B provider pool w).2.1.conn = pool.conn
    ∧ (connect B provider pool w).2.1.Configs = pool.Configs
    ∧ (connect B provider pool w).2.1.regenTryes = pool.regenTryes
    ∧ (connect B provider pool w).2.1.trippedAt = pool.trippedAt
    ∧ (connect B provider pool w).2.1.failCount = pool.failCount
    ∧ (connect B provider pool w).2.2.closedConns = w.closedConns
    ∧ (connect B provider pool w).2.2.invoked = w.invoked
    ∧ (connect B provider pool w).2.2.chanLimit = w.chanLimit
    ∧ ((connect B provider pool w).1.2 ≠ none → (connect B provider pool w).1.1 = none) := by
  unfold connect
  split_ifs with h1 h2
  · exact ⟨rfl, rfl, rfl, rfl, rfl, rfl, rfl, rfl, fun _ => rfl⟩
  · exact ⟨rfl, rfl, rfl, rfl, rfl, rfl, rfl, rfl, fun _ => rfl⟩
  · obtain ⟨c1, c2, c3, c4⟩ := Breaker.Call_connect B pool.cb pool.Configs.TimeOut w.nextTook
      provider pool.Configs.Url w
    obtain ⟨e1, e2, e3, e4, e5, -, e7, e8, e9⟩ := PgPool.emit_frame pool
      ((B.Call pool.cb pool.Configs.TimeOut w.nextTook
          (connectCircuit provider pool.Configs.Url) connectEarly (none, w)).cb,
        (B.Call pool.cb pool.Configs.TimeOut w.nextTook
          (connectCircuit provider pool.Configs.Url) connectEarly (none, w)).events)
      (B.Call pool.cb pool.Configs.TimeOut w.nextTook
          (connectCircuit provider pool.Configs.Url) connectEarly (none, w)).st.2
    exact ⟨e1, e2, e3, e4, e5, e7.trans c1, e8.trans c2, e9.trans c3, c4⟩

/-- Without a URL `connect` fails and touches neither the pool nor the world. -/
theorem connect_no_url {β : Type} (B : Breaker β) (provider : Provider) (pool : PgPool β)
    (w : World) (h : pool.Configs.Url = "") :
    connect B provider pool w = ((none, some "can't find url"), pool, w) := by
  unfold connect
  rw [if_pos h]

/-! ## setTrippedTime -/

theorem setTrippedTime_fields {β : Type} (now : Int) (pool : PgPool β) :
    (setTrippedTime now pool).conn = pool.conn
    ∧ (setTrippedTime now pool).Configs = pool.Configs
    ∧ (setTrippedTime now pool).regenTryes = pool.regenTryes
    ∧ (setTrippedTime now pool).state = pool.state
    ∧ (setTrippedTime now pool).cb = pool.cb
    ∧ (setTrippedTime now pool).failCount = pool.failCount := by
  unfold setTrippedTime
  split_ifs <;> exact ⟨rfl, rfl, rfl, rfl, rfl, rfl⟩

/-! ## generatePool -/

/-- The loop of `generatePool` runs to its end or to its early `return` on a
channel with room for its sends, and leaves the configuration, the attempt
counter and the world's logs alone.  When it does not fail first, it runs to
its end and has sent one slot per iteration. -/
theorem generateLoop_ok {β : Type} (B : Breaker β) (provider : Provider) (ff : Bool)
    (now : Int) (n : Nat) :
    ∀ (pool : PgPool β) (w : World), pool.conn.closed = false →
      (pool.conn.buf.length : Int) + n ≤ pool.conn.cap →
      ∃ err pool1 w1, generateLoop B provider ff now n pool w = .ok (err, pool1, w1)
        ∧ pool1.Configs = pool.Configs ∧ pool1.regenTryes = pool.regenTryes
        ∧ pool1.conn.closed = false ∧ (pool1.conn.buf.length : Int) ≤ pool1.conn.cap
        ∧ w1.closedConns = w.closedConns ∧ w1.invoked = w.invoked
        ∧ w1.chanLimit = w.chanLimit
        ∧ (ff = false → err = none ∧ pool1.conn.buf.length = pool.conn.buf.length + n) := by
  induction n with
  | zero =>
    intro pool w hopen hroom
    exact ⟨none, pool, w, rfl, rfl, rfl, hopen, by simpa using hroom, rfl, rfl, rfl,
      fun _ => ⟨rfl, rfl⟩⟩
  | succ n ih =>
    intro pool w hopen hroom
    have frame := connect_frame B provider pool w
    rcases hc : connect B provider pool w with ⟨⟨conn, err⟩, pool1, w1⟩
    rw [hc] at frame
    simp only at frame
    obtain ⟨fconn, fcfg, ftry, -, -, fclosed, finv, flim, -⟩ := frame
    have hopen1 : pool1.conn.closed = false := by rw [fconn]; exact hopen
    have hroom1 : (pool1.conn.buf.length : Int) < pool1.conn.cap := by
      rw [fconn]; push_cast at hroom; omega
    have hsend := Chan.send_ok pool1.conn conn hopen1 hroom1
    unfold generateLoop
    rw [hc]
    cases err with
    | none =>
      simp only [hsend]
      obtain ⟨err2, pool2, w2, h2, c2, t2, o2, r2, cl2, i2, m2, l2⟩ :=
        ih { pool1 with conn := { pool1.conn with buf := pool1.conn.buf ++ [conn] } } w1
          hopen1 (by simp only [List.length_append, List.length_singleton]
                     rw [fconn]; push_cast at hroom ⊢; omega)
      refine ⟨err2, pool2, w2, h2, c2.trans fcfg, t2.trans ftry, o2, r2, cl2.trans fclosed,
        i2.trans finv, m2.trans flim, fun h => ⟨(l2 h).1, ?_⟩⟩
      rw [(l2 h).2]
      simp only [List.length_append, List.length_singleton]
      rw [fconn]; omega
    | some e =>
      cases ff with
      | true =>
        simp only [if_true]
        obtain ⟨s1, s2, s3, -⟩ := setTrippedTime_fields now pool1
        refine ⟨some e, setTrippedTime now pool1, w1, rfl, s2.trans fcfg, s3.trans ftry,
          by rw [s1]; exact hopen1, by rw [s1]; omega, fclosed, finv, flim,
          fun h => by cases h⟩
      | false =>
        simp only [hsend, Bool.false_eq_true, if_false]
        obtain ⟨err2, pool2, w2, h2, c2, t2, o2, r2, cl2, i2, m2, l2⟩ :=
          ih { pool1 with failCount := wrap64 (pool1.failCount + 1),
                          conn := { pool1.conn with buf := pool1.conn.buf ++ [conn] } } w1
            hopen1 (by simp only [List.length_append, List.length_singleton]
                       rw [fconn]; push_cast at hroom ⊢; omega)
        refine ⟨err2, pool2, w2, h2, c2.trans fcfg, t2.trans ftry, o2, r2, cl2.trans fclosed,
          i2.trans finv, m2.trans flim, fun _ => ⟨(l2 rfl).1, ?_⟩⟩
        rw [(l2 rfl).2]
        simp only [List.length_append, List.length_singleton]
        rw [fconn]; omega

/-- The function `generatePool` returns on every pool whose size is not negative
and within what the runtime grants; it leaves the configuration, the attempt
counter and the world's logs alone and installs an open channel.  A nil error
comes with status `Success` and a breaker that is not tripped.  When it
does not fail first, the error is decided by the breaker alone and the channel
holds one slot per unit of size. -/
theorem generatePool_ok {β : Type} (B : Breaker β) (provider : Provider) (ff : Bool)
    (now : Int) (pool : PgPool β) (w : World) (hsize : 0 ≤ pool.Configs.Poolsize)
    (hmem : pool.Configs.Poolsize ≤ w.chanLimit) :
    ∃ err pool1 w1, generatePool B provider ff now pool w = .ok (err, pool1, w1)
      ∧ pool1.Configs = pool.Configs ∧ pool1.regenTryes = pool.regenTryes
      ∧ pool1.conn.closed = false ∧ (pool1.conn.buf.length : Int) ≤ pool1.conn.cap
      ∧ w1.closedConns = w.closedConns ∧ w1.invoked = w.invoked
      ∧ w1.chanLimit = w.chanLimit
      ∧ (err = none → pool1.state = Success ∧ B.Tripped pool1.cb = false)
      ∧ (ff = false →
          (B.Tripped pool1.cb = true → err = some "failed to create connection pool")
          ∧ (B.Tripped pool1.cb = false → err = none)
          ∧ (pool1.conn.buf.length : Int) = pool.Configs.Poolsize) := by
  have hmake := Chan.make_ok w.chanLimit pool.Configs.Poolsize hsize hmem
  obtain ⟨err, pool1, w1, hl, c1, t1, o1, r1, cl1, i1, m1, l1⟩ :=
    generateLoop_ok B provider ff now pool.Configs.Poolsize.toNat
      { pool with conn := { buf := [], cap := pool.Configs.Poolsize, closed := false } } w rfl
      (by simp only [List.length_nil]; rw [Int.toNat_of_nonneg hsize]; simp)
  unfold generatePool
  rw [hmake]
  simp only [hl]
  cases err with
  | some e =>
    refine ⟨some e, pool1, w1, rfl, c1, t1, o1, r1, cl1, i1, m1, (fun h => by cases h),
      fun h => ?_⟩
    exact absurd (l1 h).1 (by simp)
  | none =>
    simp only
    have hlen : ff = false → (pool1.conn.buf.length : Int) = pool.Configs.Poolsize := by
      intro h
      rw [(l1 h).2]
      simp only [List.length_nil, Nat.zero_add]
      exact Int.toNat_of_nonneg hsize
    by_cases ht : B.Tripped pool1.cb = true
    · rw [if_pos ht]
      obtain ⟨s1, s2, s3, s4, s5, -⟩ := setTrippedTime_fields now pool1
      refine ⟨_, _, _, rfl, s2.trans c1, s3.trans t1, by rw [s1]; exact o1, by rw [s1]; exact r1,
        cl1, i1, m1, (fun h => by cases h), fun h => ⟨fun _ => rfl, ?_, ?_⟩⟩
      · rw [s5]; intro hf; rw [hf] at ht; cases ht
      · rw [s1]; exact hlen h
    · rw [if_neg ht]
      have htf : B.Tripped pool1.cb = false := by simpa using ht
      refine ⟨_, _, _, rfl, c1, t1, o1, r1, cl1, i1, m1, fun _ => ⟨rfl, htf⟩,
        fun h => ⟨fun h2 => ?_, fun _ => rfl, hlen h⟩⟩
      exact absurd h2 ht

/-! ## regenerate -/

theorem wrap64_succ_ne_zero (r : Int) (h0 : 0 ≤ r) (h1 : r < 9223372036854775808) :
    wrap64 (r + 1) ≠ 0 := by
  unfold wrap64
  omega

theorem wrap64_succ (r : Int) (h0 : 0 ≤ r) (h1 : r + 1 < 9223372036854775808) :
    wrap64 (r + 1) = r + 1 := by
  unfold wrap64
  omega

/-- Once the attempt counter is not 0, `clean` receives nothing: it only closes
the channel. -/
theorem clean_skips {β : Type} (pool : PgPool β) (w : World)
    (hopen : pool.conn.closed = false) (htry : pool.regenTryes ≠ 0) :
    clean pool w = .ok ({ pool with conn := { pool.conn with closed := true } }, w) := by
  unfold clean Chan.close
  rw [if_neg htry]
  simp only [hopen, Bool.false_eq_true, if_false]

theorem reset_skips {β : Type} (B : Breaker β) (pool : PgPool β) (w : World)
    (hopen : pool.conn.closed = false) (htry : pool.regenTryes ≠ 0) :
    reset B pool w =
      .ok ({ (({ pool with conn := { pool.conn with closed := true } } : PgPool β).emit
                (B.Reset pool.cb) w).1 with failCount := 0, trippedAt := 0 },
           (({ pool with conn := { pool.conn with closed := true } } : PgPool β).emit
                (B.Reset pool.cb) w).2) := by
  unfold reset
  rw [clean_skips pool w hopen htry]

/-- The method `regenerate` returns on every pool with an open channel, a size
that is not negative and within what the runtime grants, and an attempt counter
that is a non-negative `int64`.  It closes no handle and invokes no callback;
it leaves the configuration alone and an open channel behind. -/
theorem regenerate_ok {β : Type} (B : Breaker β) (provider : Provider) (now : Int)
    (pool : PgPool β) (w : World) (hopen : pool.conn.closed = false)
    (hroom : (pool.conn.buf.length : Int) ≤ pool.conn.cap)
    (hsize : 0 ≤ pool.Configs.Poolsize) (hmem : pool.Configs.Poolsize ≤ w.chanLimit)
    (htry : 0 ≤ pool.regenTryes ∧ pool.regenTryes < 9223372036854775808) :
    ∃ pool1 w1, regenerate B provider now pool w = .ok (pool1, w1)
      ∧ w1.closedConns = w.closedConns ∧ w1.invoked = w.invoked
      ∧ w1.chanLimit = w.chanLimit
      ∧ pool1.Configs = pool.Configs
      ∧ pool1.conn.closed = false ∧ (pool1.conn.buf.length : Int) ≤ pool1.conn.cap
      ∧ (pool1.regenTryes = pool.regenTryes ∨ pool1.regenTryes = 0
          ∨ pool1.regenTryes = wrap64 (pool.regenTryes + 1)) := by
  unfold regenerate
  by_cases hc : diference now pool ≥ regentime pool ∧ pool.State = Fail
  · rw [if_pos hc]
    rw [reset_skips B ({ pool with regenTryes := wrap64 (pool.regenTryes + 1) } : PgPool β) w
      hopen (wrap64_succ_ne_zero _ htry.1 htry.2)]
    simp only
    obtain ⟨e1, e2, e3, -, -, -, e7, e8, e9⟩ := PgPool.emit_frame
      ({ ({ pool with regenTryes := wrap64 (pool.regenTryes + 1) } : PgPool β) with
          conn := { pool.conn with closed := true } } : PgPool β) (B.Reset pool.cb) w
    obtain ⟨err, pool1, w1, hg, c1, t1, o1, r1, cl1, i1, m1, -, -⟩ :=
      generatePool_ok B provider true now
        { (({ ({ pool with regenTryes := wrap64 (pool.regenTryes + 1) } : PgPool β) with
              conn := { pool.conn with closed := true } } : PgPool β).emit
            (B.Reset pool.cb) w).1 with failCount := 0, trippedAt := 0 }
        (({ ({ pool with regenTryes := wrap64 (pool.regenTryes + 1) } : PgPool β) with
              conn := { pool.conn with closed := true } } : PgPool β).emit
            (B.Reset pool.cb) w).2
        (by show 0 ≤ (PgPool.emit _ _ _).1.Configs.Poolsize; rw [e2]; exact hsize)
        (by show (PgPool.emit _ _ _).1.Configs.Poolsize ≤ (PgPool.emit _ _ _).2.chanLimit
            rw [e2, e9]; exact hmem)
    have c1 : pool1.Configs = pool.Configs := c1.trans e2
    have t1 : pool1.regenTryes = wrap64 (pool.regenTryes + 1) := t1.trans e3
    rw [hg]
    cases err with
    | none =>
      exact ⟨_, _, rfl, cl1.trans e7, i1.trans e8, m1.trans e9, c1, o1, r1,
        Or.inr (Or.inl rfl)⟩
    | some e =>
      obtain ⟨f1, f2, f3, -, -, -, f7, f8, f9⟩ := PgPool.emit_frame pool1 (B.Trip pool1.cb) w1
      obtain ⟨s1, s2, s3, -⟩ :=
        setTrippedTime_fields now (pool1.emit (B.Trip pool1.cb) w1).1
      refine ⟨_, _, rfl, (f7.trans cl1).trans e7, (f8.trans i1).trans e8,
        (f9.trans m1).trans e9, (s2.trans f2).trans c1, ?_, ?_,
        Or.inr (Or.inr ((s3.trans f3).trans t1))⟩
      · rw [s1, f1]; exact o1
      · rw [s1, f1]; exact r1
  · rw [if_neg hc]
    exact ⟨pool, w, rfl, rfl, rfl, rfl, rfl, hopen, hroom, Or.inl rfl⟩

/-! ## InitPool -/

/-- The function `InitPool` returns on every configuration whose size is not
negative and within what the runtime grants.  The pool it returns holds the
options as they were given, one slot per unit of size, and is well formed; the
breaker alone decides between the error with status `Fail` and the nil error
with status `Success`. -/
theorem InitPool_ok {β : Type} (B : Breaker β) (provider : Provider) (env : String) (now : Int)
    (opts : PgOptions) (w : World) (hsize : 0 ≤ opts.Poolsize)
    (hmem : opts.Poolsize ≤ w.chanLimit) :
    ∃ pool err w1, InitPool B provider env now opts w = .ok ((pool, err), w1)
      ∧ pool.Configs = opts
      ∧ (pool.conn.buf.length : Int) = opts.Poolsize
      ∧ (B.Tripped pool.cb = true →
          err = some "failed to create connection pool" ∧ pool.State = Fail)
      ∧ (B.Tripped pool.cb = false → err = none ∧ pool.State = Success)
      ∧ pool.WellFormed ∧ w1.chanLimit = w.chanLimit := by
  obtain ⟨err, pool1, w1, hg, c1, t1, o1, r1, -, -, m1, e1, l1⟩ :=
    generatePool_ok B provider false now
      ({ cb := B.NewRateBreaker opts.FailRate opts.Universe, conn := Chan.unset, state := "",
         trippedAt := 0, failCount := 0, regenTryes := 0, Configs := opts,
         pending := [] } : PgPool β) w hsize hmem
  obtain ⟨lt, lf, ll⟩ := l1 rfl
  have c1 : pool1.Configs = opts := c1
  have t1 : pool1.regenTryes = 0 := t1
  have ll : (pool1.conn.buf.length : Int) = opts.Poolsize := ll
  unfold InitPool
  simp only [hg]
  cases err with
  | none =>
    have ht : B.Tripped pool1.cb = false := (e1 rfl).2
    refine ⟨pool1, none, w1, rfl, c1, ll, fun h => ?_, fun _ => ⟨rfl, (e1 rfl).1⟩, ?_, m1⟩
    · rw [ht] at h; cases h
    · exact ⟨o1, r1, by rw [c1]; exact hsize, by rw [t1]; decide⟩
  | some e =>
    have ht : B.Tripped pool1.cb = true := by
      by_contra h
      have := lf (by simpa using h)
      cases this
    have he := lt ht
    refine ⟨{ pool1 with state := Fail }, some e, w1, rfl, c1, ll, fun _ => ⟨he, rfl⟩,
      fun h => ?_, ?_, m1⟩
    · have h2 : B.Tripped pool1.cb = false := h
      rw [ht] at h2; cases h2
    · exact ⟨o1, r1, by show 0 ≤ pool1.Configs.Poolsize; rw [c1]; exact hsize,
        by show 0 ≤ pool1.regenTryes ∧ pool1.regenTryes < 9223372036854775808
           rw [t1]; decide⟩

/-- On a size that is negative or beyond what the runtime grants, `InitPool`
panics in `make` and returns nothing. -/
theorem InitPool_panics {β : Type} (B : Breaker β) (provider : Provider) (env : String)
    (now : Int) (opts : PgOptions) (w : World)
    (h : opts.Poolsize < 0 ∨ w.chanLimit < opts.Poolsize) :
    InitPool B provider env now opts w = .panics := by
  unfold InitPool generatePool
  simp only [Chan.make_panics w.chanLimit opts.Poolsize h]

/-! ## A population in which every attempt fails -/

/-- Behind a driver that never yields a live handle, every attempt of `connect`
fails, whatever the pool, the breaker and the timing. -/
theorem connect_never_live {β : Type} (B : Breaker β) (provider : Provider)
    (hp : ∀ url n c, provider url n ≠ .live c) (pool : PgPool β) (w : World) :
    (connect B provider pool w).1.2 ≠ none := by
  unfold connect
  split_ifs with h1 h2
  · exact Option.some_ne_none _
  · exact Option.some_ne_none _
  · show (B.Call pool.cb pool.Configs.TimeOut w.nextTook
        (connectCircuit provider pool.Configs.Url) connectEarly (none, w)).err ≠ none
    unfold Breaker.Call
    rcases hR : B.Ready pool.cb with ⟨ok, b1, ev1⟩
    cases ok
    · exact Option.some_ne_none _
    · simp only
      split_ifs with ht
      · exact Option.some_ne_none _
      · unfold connectCircuit
        rcases hq : provider pool.Configs.Url w.opened with e | ⟨c, e⟩ | c
        · exact Option.some_ne_none _
        · exact Option.some_ne_none _
        · exact absurd hq (hp _ _ c)

/-- When every attempt of `connect` fails, the loop of `generatePool` that does
not fail first runs to its end, counts one failure and sends one nil slot per
iteration; without a URL it leaves the breaker alone. -/
theorem generateLoop_all_fail {β : Type} (B : Breaker β) (provider : Provider) (now : Int)
    (opts : PgOptions)
    (hfail : ∀ (pool : PgPool β) (w : World), pool.Configs = opts →
      (connect B provider pool w).1.2 ≠ none) (n : Nat) :
    ∀ (pool : PgPool β) (w : World), pool.Configs = opts → pool.conn.closed = false →
      (pool.conn.buf.length : Int) + n ≤ pool.conn.cap → 0 ≤ pool.failCount →
      pool.failCount + n < 9223372036854775808 →
      ∃ pool1 w1, generateLoop B provider false now n pool w = .ok (none, pool1, w1)
        ∧ pool1.failCount = pool.failCount + n
        ∧ pool1.conn.buf = pool.conn.buf ++ List.replicate n none
        ∧ (opts.Url = "" → pool1.cb = pool.cb) := by
  induction n with
  | zero =>
    intro pool w _ _ _ _ _
    exact ⟨pool, w, rfl, by simp, by simp, fun _ => rfl⟩
  | succ n ih =>
    intro pool w hcfg hopen hroom hfc hfb
    have frame := connect_frame B provider pool w
    have hf := hfail pool w hcfg
    have hnu := connect_no_url B provider pool w
    rcases hc : connect B provider pool w with ⟨⟨conn, err⟩, pool1, w1⟩
    rw [hc] at frame hf hnu
    simp only at frame hf
    obtain ⟨fconn, fcfg, -, -, ffc, -, -, -, fnil⟩ := frame
    have hconn : conn = none := fnil hf
    subst hconn
    have hopen1 : pool1.conn.closed = false := by rw [fconn]; exact hopen
    have hroom1 : (pool1.conn.buf.length : Int) < pool1.conn.cap := by
      rw [fconn]; push_cast at hroom; omega
    have hsend := Chan.send_ok pool1.conn none hopen1 hroom1
    unfold generateLoop
    rw [hc]
    cases err with
    | none => exact absurd rfl hf
    | some e =>
      simp only [hsend, Bool.false_eq_true, if_false]
      have hw : wrap64 (pool1.failCount + 1) = pool.failCount + 1 := by
        rw [ffc]
        unfold wrap64
        push_cast at hfb
        omega
      obtain ⟨pool2, w2, h2, f2, b2, u2⟩ :=
        ih { pool1 with failCount := wrap64 (pool1.failCount + 1),
                        conn := { pool1.conn with buf := pool1.conn.buf ++ [none] } } w1
          (fcfg.trans hcfg) hopen1
          (by simp only [List.length_append, List.length_singleton]
              rw [fconn]; push_cast at hroom ⊢; omega)
          (by show 0 ≤ wrap64 (pool1.failCount + 1); rw [hw]; omega)
          (by show wrap64 (pool1.failCount + 1) + (n : Int) < 9223372036854775808
              rw [hw]; push_cast at hfb; omega)
      refine ⟨pool2, w2, h2, ?_, ?_, fun hu => ?_⟩
      · rw [f2]
        show wrap64 (pool1.failCount + 1) + (n : Int) = pool.failCount + ((n + 1 : Nat) : Int)
        rw [hw]; push_cast; omega
      · rw [b2]
        show (pool1.conn.buf ++ [none]) ++ List.replicate n none
          = pool.conn.buf ++ List.replicate (n + 1) none
        rw [fconn, List.replicate_succ, List.append_assoc]
        rfl
      · rw [u2 hu]
        show pool1.cb = pool.cb
        have := hnu (by rw [hcfg]; exact hu)
        injection this with _ h3
        injection h3 with h4 _
        rw [h4]

/-- When every attempt of `connect` fails, `InitPool` returns a pool that has
counted one failure and holds one nil slot per unit of size; the breaker,
which the attempts without a URL leave as it was created, decides the error. -/
theorem InitPool_all_fail {β : Type} (B : Breaker β) (provider : Provider) (env : String)
    (now : Int) (opts : PgOptions) (w : World) (hsize : 0 ≤ opts.Poolsize)
    (hmem : opts.Poolsize ≤ w.chanLimit) (h64 : opts.Poolsize < 9223372036854775808)
    (hfail : ∀ (pool : PgPool β) (w : World), pool.Configs = opts →
      (connect B provider pool w).1.2 ≠ none) :
    ∃ pool err w1, InitPool B provider env now opts w = .ok ((pool, err), w1)
      ∧ pool.failCount = opts.Poolsize
      ∧ pool.conn.buf = List.replicate opts.Poolsize.toNat none
      ∧ (opts.Url = "" → pool.cb = B.NewRateBreaker opts.FailRate opts.Universe)
      ∧ (B.Tripped pool.cb = true → err ≠ none ∧ pool.State = Fail)
      ∧ (B.Tripped pool.cb = false → err = none ∧ pool.State = Success) := by
  have hmake := Chan.make_ok w.chanLimit opts.Poolsize hsize hmem
  have hnat : ((opts.Poolsize.toNat : Nat) : Int) = opts.Poolsize := Int.toNat_of_nonneg hsize
  obtain ⟨pool1, w1, h1, f1, b1, u1⟩ :=
    generateLoop_all_fail B provider now opts hfail opts.Poolsize.toNat
      ({ cb := B.NewRateBreaker opts.FailRate opts.Universe,
         conn := { buf := [], cap := opts.Poolsize, closed := false }, state := "",
         trippedAt := 0, failCount := 0, regenTryes := 0, Configs := opts,
         pending := [] } : PgPool β) w rfl rfl
      (by simp only [List.length_nil]; rw [hnat]; simp) (le_refl _)
      (by show (0 : Int) + (opts.Poolsize.toNat : Int) < 9223372036854775808
          rw [hnat]; omega)
  have f1 : pool1.failCount = opts.Poolsize := by
    rw [f1]
    show (0 : Int) + (opts.Poolsize.toNat : Int) = opts.Poolsize
    rw [hnat]; omega
  have b1 : pool1.conn.buf = List.replicate opts.Poolsize.toNat none := by
    rw [b1]; rfl
  have u1 : opts.Url = "" → pool1.cb = B.NewRateBreaker opts.FailRate opts.Universe := u1
  unfold InitPool generatePool
  simp only [hmake, h1]
  by_cases ht : B.Tripped pool1.cb = true
  · simp only [ht, if_true]
    obtain ⟨s1, -, -, -, s5, s6⟩ := setTrippedTime_fields now pool1
    refine ⟨_, _, _, rfl, ?_, ?_, ?_, fun _ => ⟨Option.some_ne_none _, rfl⟩, fun h => ?_⟩
    · show (setTrippedTime now pool1).failCount = opts.Poolsize
      rw [s6]; exact f1
    · show (setTrippedTime now pool1).conn.buf = _
      rw [s1]; exact b1
    · intro hu
      show (setTrippedTime now pool1).cb = _
      rw [s5]; exact u1 hu
    · have h : B.Tripped (setTrippedTime now pool1).cb = false := h
      rw [s5, ht] at h
      cases h
  · have htf : B.Tripped pool1.cb = false := by simpa using ht
    simp only [htf, Bool.false_eq_true, if_false]
    refine ⟨_, _, _, rfl, f1, b1, u1, fun h => ?_, fun _ => ⟨rfl, rfl⟩⟩
    have h : B.Tripped pool1.cb = true := h
    rw [htf] at h
    cases h

/-! ## Execute -/

/-- On a pool in status `Fail`, `Execute` is `regenerate` followed by the error. -/
theorem Execute_fail {β : Type} (B : Breaker β) (provider : Provider)
    (callback : Conn → Option String) (now : Int) (pool : PgPool β) (w : World)
    (hs : pool.State = Fail) (pool1 : PgPool β) (w1 : World)
    (hr : regenerate B provider now pool w = .ok (pool1, w1)) :
    Execute B provider callback now pool w = .ok (some "unavailable service", pool1, w1) := by
  unfold Execute
  rw [if_pos hs, hr]

/-- On a pool in status `Regenerate`, `Execute` only returns the error. -/
theorem Execute_regenerating {β : Type} (B : Breaker β) (provider : Provider)
    (callback : Conn → Option String) (now : Int) (pool : PgPool β) (w : World)
    (hs : pool.State = Regenerate) :
    Execute B provider callback now pool w = .ok (some "unavailable service", pool, w) := by
  unfold Execute
  rw [if_neg (by rw [hs]; decide), if_pos hs]

/-- On a pool whose status is neither `Fail` nor `Regenerate` and whose next
slot is nil, `Execute` reports a failure to the breaker and returns the error;
the slot stays out of the channel. -/
theorem Execute_nil_branch {β : Type} (B : Breaker β) (provider : Provider)
    (callback : Conn → Option String) (now : Int) (pool : PgPool β) (w : World)
    (hF : pool.State ≠ Fail) (hR : pool.State ≠ Regenerate) (rest : List (Option Conn))
    (hbuf : pool.conn.buf = none :: rest) :
    Execute B provider callback now pool w =
      .ok (some "empty connection",
        ({ pool with conn := { pool.conn with buf := rest } } : PgPool β).emit
          (B.Fail pool.cb) w) := by
  unfold Execute Chan.recv
  rw [if_neg hF, if_neg hR, hbuf]

/-- What the call of `Execute` leaves untouched. -/
theorem Breaker.Call_execute {β : Type} (B : Breaker β) (b : β) (timeout : Int) (took : Nat)
    (callback : Conn → Option String) (c : Conn) (w : World) :
    (B.Call b timeout took (executeCircuit callback c) (executeEarly c)
        (none, w)).st.2.closedConns = w.closedConns
    ∧ (B.Call b timeout took (executeCircuit callback c) (executeEarly c)
        (none, w)).st.2.chanLimit = w.chanLimit := by
  unfold Breaker.Call
  rcases hR : B.Ready b with ⟨ok, b1, ev1⟩
  cases ok
  · exact ⟨rfl, rfl⟩
  · simp only
    split_ifs with ht
    · exact ⟨rfl, rfl⟩
    · exact ⟨rfl, rfl⟩

/-- On a pool whose status is neither `Fail` nor `Regenerate` and whose next
slot is a handle, `Execute` returns and has sent the handle back to the
channel, whatever the breaker and the callback do. -/
theorem Execute_borrow_frame {β : Type} (B : Breaker β) (provider : Provider)
    (callback : Conn → Option String) (now : Int) (pool : PgPool β) (w : World)
    (hF : pool.State ≠ Fail) (hR : pool.State ≠ Regenerate) (c : Conn)
    (rest : List (Option Conn)) (hbuf : pool.conn.buf = some c :: rest)
    (hopen : pool.conn.closed = false)
    (hroom : (pool.conn.buf.length : Int) ≤ pool.conn.cap) :
    ∃ err pool1 w1, Execute B provider callback now pool w = .ok (err, pool1, w1)
      ∧ pool1.conn = { pool.conn with buf := rest ++ [some c] }
      ∧ pool1.Configs = pool.Configs ∧ pool1.regenTryes = pool.regenTryes
      ∧ w1.closedConns = w.closedConns ∧ w1.chanLimit = w.chanLimit := by
  have hsend := Chan.send_ok { pool.conn with buf := rest } (some c) hopen
    (by rw [hbuf] at hroom; simp only [List.length_cons] at hroom; push_cast at hroom
        show (rest.length : Int) < pool.conn.cap; omega)
  obtain ⟨c1, c2⟩ := Breaker.Call_execute B pool.cb pool.Configs.TimeOut w.nextTook callback c w
  unfold Execute Chan.recv
  rw [if_neg hF, if_neg hR, hbuf]
  simp only [hsend]
  obtain ⟨e1, e2, e3, -, -, -, e7, -, e9⟩ := PgPool.emit_frame
    ({ pool with conn := { pool.conn with buf := rest ++ [some c] } } : PgPool β)
    ((B.Call pool.cb pool.Configs.TimeOut w.nextTook (executeCircuit callback c)
        (executeEarly c) (none, w)).cb,
      (B.Call pool.cb pool.Configs.TimeOut w.nextTook (executeCircuit callback c)
        (executeEarly c) (none, w)).events)
    (B.Call pool.cb pool.Configs.TimeOut w.nextTook (executeCircuit callback c)
        (executeEarly c) (none, w)).st.2
  exact ⟨_, _, _, rfl, e1, e2, e3, e7.trans c1, e9.trans c2⟩

/-- On a pool in status `Success` whose next slot is a handle, behind a breaker
that admits the call, with a callback that returns before the timeout runs
out, `Execute` runs the callback on the handle, returns its error, and sends
the handle back to the channel. -/
theorem Execute_live_branch {β : Type} (B : Breaker β) (provider : Provider)
    (callback : Conn → Option String) (now : Int) (pool : PgPool β) (w : World)
    (hs : pool.State = Success) (c : Conn) (rest : List (Option Conn))
    (hbuf : pool.conn.buf = some c :: rest) (hopen : pool.conn.closed = false)
    (hroom : (pool.conn.buf.length : Int) ≤ pool.conn.cap)
    (hpass : (B.Ready pool.cb).1 = true)
    (htime : pool.Configs.TimeOut = 0 ∨ (w.nextTook : Int) < pool.Configs.TimeOut) :
    ∃ pool1 w1, Execute B provider callback now pool w = .ok (callback c, pool1, w1)
      ∧ w1.invoked = w.invoked ++ [c]
      ∧ pool1.conn.buf = rest ++ [some c] := by
  have hsend := Chan.send_ok { pool.conn with buf := rest } (some c) hopen
    (by rw [hbuf] at hroom; simp only [List.length_cons] at hroom; push_cast at hroom
        show (rest.length : Int) < pool.conn.cap; omega)
  have hcall : B.Call pool.cb pool.Configs.TimeOut w.nextTook (executeCircuit callback c)
      (executeEarly c) (none, w)
      = { err := none, cb := (B.Success (B.Ready pool.cb).2.1).1,
          events := (B.Ready pool.cb).2.2 ++ (B.Success (B.Ready pool.cb).2.1).2,
          st := (callback c, { w with invoked := w.invoked ++ [c], took := w.took.tail }) } := by
    unfold Breaker.Call executeCircuit
    rcases hR : B.Ready pool.cb with ⟨ok, b1, ev1⟩
    rw [hR] at hpass
    simp only at hpass
    subst hpass
    simp only
    rw [if_neg (by omega)]
  unfold Execute Chan.recv
  rw [if_neg (by rw [hs]; decide), if_neg (by rw [hs]; decide), hbuf]
  simp only [hsend, hcall]
  obtain ⟨e1, -, -, -, -, -, -, e8, -⟩ := PgPool.emit_frame
    ({ pool with conn := { pool.conn with buf := rest ++ [some c] } } : PgPool β)
    ((B.Success (B.Ready pool.cb).2.1).1,
      (B.Ready pool.cb).2.2 ++ (B.Success (B.Ready pool.cb).2.1).2)
    { w with invoked := w.invoked ++ [c], took := w.took.tail }
  exact ⟨_, _, rfl, e8, congrArg Chan.buf e1⟩

/-- On a pool whose status is neither `Fail` nor `Regenerate` and whose next
slot is a handle, behind a breaker that refuses the call, `Execute` returns a
nil error and the callback is not invoked. -/
theorem Execute_refused_branch {β : Type} (B : Breaker β) (provider : Provider)
    (callback : Conn → Option String) (now : Int) (pool : PgPool β) (w : World)
    (hF : pool.State ≠ Fail) (hR : pool.State ≠ Regenerate) (c : Conn)
    (rest : List (Option Conn)) (hbuf : pool.conn.buf = some c :: rest)
    (hopen : pool.conn.closed = false)
    (hroom : (pool.conn.buf.length : Int) ≤ pool.conn.cap)
    (hrefuse : (B.Ready pool.cb).1 = false) :
    ∃ pool1 w1, Execute B provider callback now pool w = .ok (none, pool1, w1)
      ∧ w1.invoked = w.invoked := by
  have hsend := Chan.send_ok { pool.conn with buf := rest } (some c) hopen
    (by rw [hbuf] at hroom; simp only [List.length_cons] at hroom; push_cast at hroom
        show (rest.length : Int) < pool.conn.cap; omega)
  have hcall : B.Call pool.cb pool.Configs.TimeOut w.nextTook (executeCircuit callback c)
      (executeEarly c) (none, w)
      = { err := some ErrBreakerOpen, cb := (B.Ready pool.cb).2.1,
          events := (B.Ready pool.cb).2.2, st := (none, w) } := by
    unfold Breaker.Call
    rcases hQ : B.Ready pool.cb with ⟨ok, b1, ev1⟩
    rw [hQ] at hrefuse
    simp only at hrefuse
    subst hrefuse
    rfl
  unfold Execute Chan.recv
  rw [if_neg hF, if_neg hR, hbuf]
  simp only [hsend, hcall]
  obtain ⟨-, -, -, -, -, -, -, e8, -⟩ := PgPool.emit_frame
    ({ pool with conn := { pool.conn with buf := rest ++ [some c] } } : PgPool β)
    ((B.Ready pool.cb).2.1, (B.Ready pool.cb).2.2) w
  exact ⟨_, _, rfl, e8⟩

/-- On a pool whose status is neither `Fail` nor `Regenerate` and whose next
slot is a handle, behind a breaker that admits the call, with a callback that
outlasts the timeout, `Execute` returns a nil error whatever the callback
returns later. -/
theorem Execute_timeout_branch {β : Type} (B : Breaker β) (provider : Provider)
    (callback : Conn → Option String) (now : Int) (pool : PgPool β) (w : World)
    (hF : pool.State ≠ Fail) (hR : pool.State ≠ Regenerate) (c : Conn)
    (rest : List (Option Conn)) (hbuf : pool.conn.buf = some c :: rest)
    (hopen : pool.conn.closed = false)
    (hroom : (pool.conn.buf.length : Int) ≤ pool.conn.cap)
    (hpass : (B.Ready pool.cb).1 = true)
    (htime : pool.Configs.TimeOut ≠ 0 ∧ pool.Configs.TimeOut ≤ (w.nextTook : Int)) :
    ∃ pool1 w1, Execute B provider callback now pool w = .ok (none, pool1, w1) := by
  have hsend := Chan.send_ok { pool.conn with buf := rest } (some c) hopen
    (by rw [hbuf] at hroom; simp only [List.length_cons] at hroom; push_cast at hroom
        show (rest.length : Int) < pool.conn.cap; omega)
  have hcall : (B.Call pool.cb pool.Configs.TimeOut w.nextTook (executeCircuit callback c)
      (executeEarly c) (none, w)).st.1 = none := by
    unfold Breaker.Call
    rcases hQ : B.Ready pool.cb with ⟨ok, b1, ev1⟩
    rw [hQ] at hpass
    simp only at hpass
    subst hpass
    simp only
    rw [if_pos htime]
    rfl
  unfold Execute Chan.recv
  rw [if_neg hF, if_neg hR, hbuf]
  simp only [hsend, hcall]
  exact ⟨_, _, rfl⟩

/-- On a pool in status `Success` whose open channel is empty, `Execute` blocks
forever in its receive. -/
theorem Execute_empty_store_blocks {β : Type} (B : Breaker β) (provider : Provider)
    (callback : Conn → Option String) (now : Int) (pool : PgPool β) (w : World)
    (hs : pool.State = Success) (hbuf : pool.conn.buf = [])
    (hopen : pool.conn.closed = false) :
    Execute B provider callback now pool w = .blocks := by
  unfold Execute Chan.recv
  rw [if_neg (by rw [hs]; decide), if_neg (by rw [hs]; decide), hbuf]
  simp only [hopen, Bool.false_eq_true, if_false]

/-! ## A population in which every attempt succeeds -/

/-- Behind a breaker that keeps its contract and is not tripped, with a URL, no
timeout and a driver whose open and ping succeed, `connect` returns the handle
and a nil error, and the breaker is still not tripped. -/
theorem connect_live {β : Type} (B : Breaker β) (hB : B.Lawful) (provider : Provider)
    (pool : PgPool β) (w : World) (hurl : pool.Configs.Url ≠ "")
    (hto : pool.Configs.TimeOut = 0) (hclosed : B.Tripped pool.cb = false) (c : Conn)
    (hp : provider pool.Configs.Url w.opened = .live c) :
    ∃ pool1 w1, connect B provider pool w = ((some c, none), pool1, w1)
      ∧ pool1.conn = pool.conn ∧ pool1.Configs = pool.Configs
      ∧ B.Tripped pool1.cb = false := by
  have hcall : B.Call pool.cb pool.Configs.TimeOut w.nextTook
      (connectCircuit provider pool.Configs.Url) connectEarly (none, w)
      = { err := none, cb := (B.Success pool.cb).1, events := [] ++ (B.Success pool.cb).2,
          st := (some c, { w with opened := w.opened + 1, took := w.took.tail }) } := by
    unfold Breaker.Call connectCircuit
    rw [hB.ready_closed _ hclosed]
    simp only [hto, ne_eq, not_true_eq_false, false_and, if_false, hp]
  obtain ⟨e1, e2, -, -, -, e6, -⟩ := PgPool.emit_frame pool
    ((B.Success pool.cb).1, [] ++ (B.Success pool.cb).2)
    { w with opened := w.opened + 1, took := w.took.tail }
  unfold connect
  rw [if_neg hurl, hclosed]
  simp only [Bool.false_eq_true, if_false, hcall]
  exact ⟨_, _, rfl, e1, e2, (congrArg B.Tripped e6).trans (hB.success_closed _ hclosed)⟩

/-- With a URL and no timeout, behind a breaker that keeps its contract and a
driver whose every open and ping succeeds, the loop of `generatePool` runs to
its end and sends one handle per iteration. -/
theorem generateLoop_all_live {β : Type} (B : Breaker β) (hB : B.Lawful) (provider : Provider)
    (hp : ∀ url n, ∃ c, provider url n = .live c) (ff : Bool) (now : Int) (n : Nat) :
    ∀ (pool : PgPool β) (w : World), pool.Configs.Url ≠ "" → pool.Configs.TimeOut = 0 →
      B.Tripped pool.cb = false →
      pool.conn.closed = false → (pool.conn.buf.length : Int) + n ≤ pool.conn.cap →
      (∀ x ∈ pool.conn.buf, x ≠ none) →
      ∃ pool1 w1, generateLoop B provider ff now n pool w = .ok (none, pool1, w1)
        ∧ B.Tripped pool1.cb = false
        ∧ pool1.conn.buf.length = pool.conn.buf.length + n
        ∧ (∀ x ∈ pool1.conn.buf, x ≠ none) := by
  induction n with
  | zero =>
    intro pool w _ _ hcl _ _ hall
    exact ⟨pool, w, rfl, hcl, rfl, hall⟩
  | succ n ih =>
    intro pool w hurl hto hcl hopen hroom hall
    obtain ⟨c, hc⟩ := hp pool.Configs.Url w.opened
    obtain ⟨pool1, w1, hcon, fconn, fcfg, ftr⟩ :=
      connect_live B hB provider pool w hurl hto hcl c hc
    have hopen1 : pool1.conn.closed = false := by rw [fconn]; exact hopen
    have hsend := Chan.send_ok pool1.conn (some c) hopen1
      (by rw [fconn]; push_cast at hroom; omega)
    unfold generateLoop
    rw [hcon]
    simp only [hsend]
    obtain ⟨pool2, w2, h2, t2, l2, a2⟩ :=
      ih { pool1 with conn := { pool1.conn with buf := pool1.conn.buf ++ [some c] } } w1
        (by show pool1.Configs.Url ≠ ""; rw [fcfg]; exact hurl)
        (by show pool1.Configs.TimeOut = 0; rw [fcfg]; exact hto) ftr hopen1
        (by simp only [List.length_append, List.length_singleton]
            rw [fconn]; push_cast at hroom ⊢; omega)
        (by intro x hx
            rcases List.mem_append.mp hx with h | h
            · rw [fconn] at h; exact hall x h
            · rw [List.mem_singleton.mp h]; exact Option.some_ne_none c)
    refine ⟨pool2, w2, h2, t2, ?_, a2⟩
    rw [l2]
    simp only [List.length_append, List.length_singleton]
    rw [fconn]
    omega

/-- With a URL, no timeout and a size that is not negative and within what the
runtime grants, behind a breaker that keeps its contract and a driver whose
every open and ping succeeds, `InitPool` returns a nil error and a pool in
status `Success` whose channel holds as many handles as the size given in the
options, none of them nil. -/
theorem InitPool_all_live {β : Type} (B : Breaker β) (hB : B.Lawful) (provider : Provider)
    (hp : ∀ url n, ∃ c, provider url n = .live c) (env : String) (now : Int)
    (opts : PgOptions) (w : World) (hurl : opts.Url ≠ "") (hto : opts.TimeOut = 0)
    (hsize : 0 ≤ opts.Poolsize) (hmem : opts.Poolsize ≤ w.chanLimit) :
    ∃ pool w1, InitPool B provider env now opts w = .ok ((pool, none), w1)
      ∧ pool.State = Success
      ∧ (pool.conn.buf.length : Int) = opts.Poolsize
      ∧ (∀ x ∈ pool.conn.buf, x ≠ none) := by
  have hmake := Chan.make_ok w.chanLimit opts.Poolsize hsize hmem
  obtain ⟨pool1, w1, h1, t1, l1, a1⟩ :=
    generateLoop_all_live B hB provider hp false now opts.Poolsize.toNat
      ({ cb := B.NewRateBreaker opts.FailRate opts.Universe,
         conn := { buf := [], cap := opts.Poolsize, closed := false }, state := "",
         trippedAt := 0, failCount := 0, regenTryes := 0, Configs := opts,
         pending := [] } : PgPool β) w
      hurl hto (hB.new_closed _ _) rfl
      (by simp only [List.length_nil]; rw [Int.toNat_of_nonneg hsize]; simp)
      (by intro x hx; cases hx)
  unfold InitPool generatePool
  simp only [hmake, h1, t1, Bool.false_eq_true, if_false]
  refine ⟨_, _, rfl, rfl, ?_, a1⟩
  show (pool1.conn.buf.length : Int) = opts.Poolsize
  rw [l1]
  simp only [List.length_nil, Nat.zero_add]
  exact Int.toNat_of_nonneg hsize

/-! ## Well-formed pools -/

/-- Every pool that `InitPool` returns is well formed, and of a size that the
runtime grants. -/
theorem InitPool_wellFormed {β : Type} (B : Breaker β) (provider : Provider) (env : String)
    (now : Int) (opts : PgOptions) (w : World) (pool : PgPool β) (err : Option String)
    (w1 : World) (h : InitPool B provider env now opts w = .ok ((pool, err), w1)) :
    pool.WellFormed ∧ pool.Configs.Poolsize ≤ w1.chanLimit := by
  by_cases hsize : 0 ≤ opts.Poolsize ∧ opts.Poolsize ≤ w.chanLimit
  · obtain ⟨pool2, err2, w2, h2, hc, -, -, -, hwf, hm⟩ :=
      InitPool_ok B provider env now opts w hsize.1 hsize.2
    rw [h2] at h
    injection h with h
    injection h with h hw
    injection h with h _
    rw [← h, ← hw]
    exact ⟨hwf, by rw [hc, hm]; exact hsize.2⟩
  · rw [InitPool_panics B provider env now opts w (by omega)] at h
    cases h

/-- Every pool that `Execute` returns, called on a well-formed pool of a size
that the runtime grants, is well formed again and of such a size, as long as
the attempt counter has not reached the end of `int64`. -/
theorem Execute_wellFormed {β : Type} (B : Breaker β) (provider : Provider)
    (callback : Conn → Option String) (now : Int) (pool : PgPool β) (w : World)
    (hwf : pool.WellFormed) (hmem : pool.Configs.Poolsize ≤ w.chanLimit)
    (hbound : pool.regenTryes + 1 < 9223372036854775808)
    (err : Option String) (pool1 : PgPool β) (w1 : World)
    (h : Execute B provider callback now pool w = .ok (err, pool1, w1)) :
    pool1.WellFormed ∧ pool1.Configs.Poolsize ≤ w1.chanLimit := by
  by_cases hF : pool.State = Fail
  · obtain ⟨pool2, w2, hr, -, -, hm, hc, ho, hro, ht⟩ :=
      regenerate_ok B provider now pool w hwf.chanOpen hwf.room hwf.size hmem hwf.tryes
    rw [Execute_fail B provider callback now pool w hF pool2 w2 hr] at h
    injection h with h
    injection h with _ h
    injection h with h hw
    rw [← h, ← hw]
    refine ⟨⟨ho, hro, by rw [hc]; exact hwf.size, ?_⟩, by rw [hc, hm]; exact hmem⟩
    have h0 := hwf.tryes
    rcases ht with ht | ht | ht
    · rw [ht]; exact h0
    · rw [ht]; decide
    · rw [ht, wrap64_succ _ h0.1 hbound]; omega
  · by_cases hR : pool.State = Regenerate
    · rw [Execute_regenerating B provider callback now pool w hR] at h
      injection h with h
      injection h with _ h
      injection h with h hw
      rw [← h, ← hw]
      exact ⟨hwf, hmem⟩
    · cases hb : pool.conn.buf with
      | nil =>
        unfold Execute Chan.recv at h
        rw [if_neg hF, if_neg hR, hb] at h
        simp only [hwf.chanOpen, Bool.false_eq_true, if_false] at h
        cases h
      | cons x rest =>
        have hlen : (rest.length : Int) + 1 ≤ pool.conn.cap := by
          have := hwf.room
          rw [hb] at this
          simpa using this
        cases x with
        | none =>
          rw [Execute_nil_branch B provider callback now pool w hF hR rest hb] at h
          obtain ⟨e1, e2, e3, -, -, -, -, -, e9⟩ := PgPool.emit_frame
            ({ pool with conn := { pool.conn with buf := rest } } : PgPool β) (B.Fail pool.cb) w
          injection h with h
          injection h with _ h
          have h1 := congrArg Prod.fst h
          have h2 := congrArg Prod.snd h
          simp only at h1 h2
          rw [← h1, ← h2]
          refine ⟨⟨by rw [e1]; exact hwf.chanOpen, ?_, by rw [e2]; exact hwf.size,
            by rw [e3]; exact hwf.tryes⟩, by rw [e2, e9]; exact hmem⟩
          rw [e1]
          show (rest.length : Int) ≤ pool.conn.cap
          omega
        | some c =>
          obtain ⟨err2, pool2, w2, h2, fc, fcfg, ftry, -, flim⟩ :=
            Execute_borrow_frame B provider callback now pool w hF hR c rest hb hwf.chanOpen
              hwf.room
          rw [h2] at h
          injection h with h
          injection h with _ h
          injection h with h hw
          rw [← h, ← hw]
          refine ⟨⟨by rw [fc]; exact hwf.chanOpen, ?_, by rw [fcfg]; exact hwf.size,
            by rw [ftry]; exact hwf.tryes⟩, by rw [fcfg, flim]; exact hmem⟩
          rw [fc]
          show ((rest ++ [some c]).length : Int) ≤ pool.conn.cap
          simp only [List.length_append, List.length_singleton]
          push_cast
          omega

/-! ## The reference breaker -/

theorem rateBreaker_lawful : rateBreaker.Lawful := by
  refine ⟨fun _ _ => rfl, fun b h => ?_, fun b h => h⟩
  have h : b.tripped = false := h
  show (!b.tripped, b, []) = (true, b, [])
  rw [h]
  rfl

/-! ## The sample pools -/

theorem nilPool_wellFormed : nilPool.WellFormed :=
  ⟨rfl, by decide, by decide, by decide⟩

theorem failedPool_wellFormed : failedPool.WellFormed :=
  ⟨rfl, by decide, by decide, by decide⟩

theorem readyPool_wellFormed : readyPool.WellFormed :=
  ⟨rfl, by decide, by decide, by decide⟩

theorem stalePool_wellFormed : stalePool.WellFormed :=
  ⟨rfl, by decide, by decide, by decide⟩

/-- The pool `failedPool` is what `InitPool` returns at second 100 for the
scenario configuration when every ping fails. -/
theorem failedPool_from_InitPool :
    InitPool rateBreaker badProvider "" 100 optsScenario World.init
      = .ok ((failedPool, some "failed to create connection pool"), World.three) := by
  decide!

/-- The pool `nilPool` is what `InitPool` returns when no URL is configured. -/
theorem nilPool_from_InitPool :
    InitPool rateBreaker badProvider "" 100 optsNoUrl World.init
      = .ok ((nilPool, none), World.init) := by
  rfl

/-- The pool `leakPool` is what `InitPool` returns at second 100 behind the
driver whose second ping fails. -/
theorem leakPool_from_InitPool :
    InitPool rateBreaker flakyProvider "" 100 optsFlaky World.init
      = .ok ((leakPool, some "failed to create connection pool"), World.two) := by
  decide!

/-- The pool `mixedPool` is what `InitPool` returns behind the driver whose
first ping fails. -/
theorem mixedPool_from_InitPool :
    InitPool rateBreaker firstFailsProvider "" 100 optsStale World.init
      = .ok ((mixedPool, none), World.three) := by
  decide!

/-- The pool `stalePool` is what `Execute` leaves when it is called on
`mixedPool` while the goroutine of `subscribe` lags behind: the nil slot trips
the breaker and the status stays `Success`. -/
theorem stalePool_from_Execute :
    Execute rateBreaker firstFailsProvider (fun _ => none) 100 mixedPool World.lagging
      = .ok (some "empty connection", stalePool, World.three) := by
  decide!

/-- A regeneration that succeeds inside `Execute`: the pool comes back in status
`Success` with three fresh handles, and the call still reports the error
without a callback invocation. -/
theorem Execute_failedPool_regenerates :
    ∃ pool1 w1,
      Execute rateBreaker goodProvider (fun _ => none) 100 failedPool World.init
        = .ok (some "unavailable service", pool1, w1)
      ∧ pool1.State = Success ∧ pool1.conn.buf = [some 0, some 1, some 2] ∧ w1.invoked = [] :=
  ⟨_, _, rfl, rfl, rfl, rfl⟩

/-- A callback that outlasts the timeout: on the pool of two handles with a
timeout of one second, a callback that takes two seconds and fails is started
on the handle 0, and `Execute` returns a nil error. -/
theorem Execute_readyPool_times_out :
    ∃ pool1 w1,
      Execute rateBreaker goodProvider (fun _ => some "query failed") 100 readyPool
          { World.init with took := [2000000000] }
        = .ok (none, pool1, w1)
      ∧ w1.invoked = [0] ∧ pool1.conn.buf = [some 1, some 0] :=
  ⟨_, _, rfl, rfl, rfl⟩

/-! ## The claims -/

/-- C1 (the code departs from the claim): the pool that `InitPool` returns
holds the options as they were given, not the normalized ones.  For options
with a URL, a failure rate of 1.5 and nothing else, `pool.Configs` keeps the
rate 1.5, the size 0 and the cooldown 0, where `configValidate` yields the rate
1, the size 5 and a cooldown of 3 seconds. -/
theorem InitPool_keeps_raw_options :
    ∃ pool w1,
      InitPool rateBreaker goodProvider "" 100 optsRaw World.init = .ok ((pool, none), w1)
      ∧ pool.Configs = optsRaw
      ∧ pool.Configs.FailRate = .fin (3 / 2) ∧ (configValidate "" optsRaw).FailRate = .fin 1
      ∧ pool.Configs.Poolsize = 0 ∧ (configValidate "" optsRaw).Poolsize = 5
      ∧ pool.Configs.Universe = 0 ∧ (configValidate "" optsRaw).Universe = 5
      ∧ pool.Configs.Regenerate = 0 ∧ (configValidate "" optsRaw).Regenerate = 3 * Second :=
  ⟨_, _, rfl, rfl, rfl, by decide!, rfl, rfl, rfl, rfl, rfl, rfl⟩

/-- C2 (the code departs from the claim): with a URL, a size left at 0 and a
driver that always succeeds, `InitPool` returns a nil error and status
`Success`, and the channel holds no connection at all, not 5; with a negative
size `InitPool` panics in `make` and returns nothing. -/
theorem InitPool_zero_size_is_empty :
    (∃ pool w1,
      InitPool rateBreaker goodProvider "" 100 optsUrlOnly World.init = .ok ((pool, none), w1)
      ∧ optsUrlOnly.Poolsize = 0 ∧ pool.State = Success ∧ pool.conn.buf = [])
    ∧ optsNegative.Poolsize = -1
    ∧ InitPool rateBreaker goodProvider "" 100 optsNegative World.init = .panics :=
  ⟨⟨_, _, rfl, rfl, rfl, rfl⟩, rfl, rfl⟩

/-- C3, refuted as stated: with no URL configured each of the three connection
attempts of the initial population fails (the pool counts three failures and
holds three nil slots), and `InitPool` returns a nil error and a pool in status
`Success`. -/
theorem InitPool_no_url_reports_success :
    InitPool rateBreaker badProvider "" 100 optsNoUrl World.init
      = .ok ((nilPool, none), World.init)
    ∧ nilPool.failCount = optsNoUrl.Poolsize
    ∧ nilPool.conn.buf = [none, none, none]
    ∧ nilPool.State = Success :=
  ⟨rfl, rfl, rfl, rfl⟩

/-- C3 (amended): for every configuration whose size is an `int64` that is not
negative and that the runtime grants a channel for, and every provider
behaviour under which each connection attempt fails, whatever the reason
`connect` fails (open error, ping error, timeout, a refusing breaker, no URL),
`InitPool` returns a pool that has counted as many failures as its size and
holds as many nil slots; when the breaker is tripped at the end of the
population, `InitPool` returns a non-nil error and the status of the pool is
`Fail`.  The attempts made without a URL leave the breaker as it was created. -/
theorem InitPool_failed_attempts_tripped {β : Type} (B : Breaker β) (provider : Provider)
    (env : String) (now : Int) (opts : PgOptions) (w : World) (hsize : 0 ≤ opts.Poolsize)
    (hmem : opts.Poolsize ≤ w.chanLimit) (h64 : opts.Poolsize < 9223372036854775808)
    (hfail : ∀ (pool : PgPool β) (w : World), pool.Configs = opts →
      (connect B provider pool w).1.2 ≠ none) :
    ∃ pool err w1, InitPool B provider env now opts w = .ok ((pool, err), w1)
      ∧ pool.failCount = opts.Poolsize
      ∧ pool.conn.buf = List.replicate opts.Poolsize.toNat none
      ∧ (B.Tripped pool.cb = true → err ≠ none ∧ pool.State = Fail)
      ∧ (opts.Url = "" → pool.cb = B.NewRateBreaker opts.FailRate opts.Universe) := by
  obtain ⟨pool, err, w1, h, hf, hb, hu, ht, -⟩ :=
    InitPool_all_fail B provider env now opts w hsize hmem h64 hfail
  exact ⟨pool, err, w1, h, hf, hb, ht, hu⟩

/-- C3, an instance: the scenario configuration against a driver whose every
ping fails. -/
theorem InitPool_failed_attempts_tripped_witness :
    0 ≤ optsScenario.Poolsize ∧ optsScenario.Poolsize ≤ World.init.chanLimit
    ∧ optsScenario.Poolsize < 9223372036854775808
    ∧ (∀ (pool : PgPool RateState) (w : World), pool.Configs = optsScenario →
        (connect rateBreaker badProvider pool w).1.2 ≠ none)
    ∧ ∃ pool err w1,
      InitPool rateBreaker badProvider "" 100 optsScenario World.init = .ok ((pool, err), w1)
      ∧ pool.failCount = optsScenario.Poolsize
      ∧ pool.conn.buf = List.replicate optsScenario.Poolsize.toNat none
      ∧ (rateBreaker.Tripped pool.cb = true → err ≠ none ∧ pool.State = Fail)
      ∧ (optsScenario.Url = "" →
          pool.cb = rateBreaker.NewRateBreaker optsScenario.FailRate optsScenario.Universe) :=
  ⟨by decide, by decide, by decide,
    fun pool w _ => connect_never_live rateBreaker badProvider
      (fun _ _ _ h => Attempt.noConfusion h) pool w,
    InitPool_failed_attempts_tripped rateBreaker badProvider "" 100 optsScenario World.init
      (by decide) (by decide) (by decide)
      (fun pool w _ => connect_never_live rateBreaker badProvider
        (fun _ _ _ h => Attempt.noConfusion h) pool w)⟩

/-- C4: on every well-formed pool whose status is `Fail` or `Regenerate`, of a
size that the runtime still grants a channel for, and for every callback,
driver, timing and clock reading, `Execute` returns the error "unavailable
service" and the callback is not invoked, whatever the regeneration started by
the `Fail` branch achieves. -/
theorem Execute_unavailable {β : Type} (B : Breaker β) (provider : Provider)
    (callback : Conn → Option String) (now : Int) (pool : PgPool β) (w : World)
    (hwf : pool.WellFormed) (hmem : pool.Configs.Poolsize ≤ w.chanLimit)
    (hs : pool.State = Fail ∨ pool.State = Regenerate) :
    ∃ pool1 w1,
      Execute B provider callback now pool w = .ok (some "unavailable service", pool1, w1)
      ∧ w1.invoked = w.invoked := by
  rcases hs with hF | hR
  · obtain ⟨pool1, w1, hr, -, hinv, -⟩ :=
      regenerate_ok B provider now pool w hwf.chanOpen hwf.room hwf.size hmem hwf.tryes
    exact ⟨pool1, w1, Execute_fail B provider callback now pool w hF pool1 w1 hr, hinv⟩
  · exact ⟨pool, w, Execute_regenerating B provider callback now pool w hR, rfl⟩

/-- C4, an instance: the failed pool of the scenario, called when the driver
works again. -/
theorem Execute_unavailable_witness :
    failedPool.WellFormed ∧ failedPool.Configs.Poolsize ≤ World.init.chanLimit
    ∧ failedPool.State = Fail
    ∧ ∃ pool1 w1,
      Execute rateBreaker goodProvider (fun _ => none) 100 failedPool World.init
        = .ok (some "unavailable service", pool1, w1)
      ∧ w1.invoked = World.init.invoked :=
  ⟨failedPool_wellFormed, by decide, rfl,
    Execute_unavailable rateBreaker goodProvider (fun _ => none) 100 failedPool World.init
      failedPool_wellFormed (by decide) (Or.inl rfl)⟩

/-- C5, refuted as stated: on the pool that a lagging listener leaves in status
`Success` behind a tripped breaker, with the handle 1 as its next slot,
`Execute` does not invoke a callback that would fail: the breaker refuses the
call, and `Execute` returns a nil error. -/
theorem Execute_stale_status_skips_callback :
    stalePool.State = Success ∧ stalePool.conn.buf = [some 1, some 2]
    ∧ ∃ pool1 w1,
      Execute rateBreaker goodProvider (fun _ => some "query failed") 100 stalePool World.three
        = .ok (none, pool1, w1)
      ∧ w1.invoked = [] ∧ pool1.conn.buf = [some 2, some 1] :=
  ⟨rfl, rfl, _, _, rfl, rfl, rfl⟩

/-- C5 (amended): on every well-formed pool in status `Success` whose next slot
is a handle and whose breaker admits the call, and for every callback that
returns before the configured timeout runs out (every callback when the
timeout is 0), `Execute` invokes the callback on that handle, returns exactly
the error the callback returns, and sends the handle back, so the channel
holds as many slots after the call as before it. -/
theorem Execute_ready_runs_callback {β : Type} (B : Breaker β) (provider : Provider)
    (callback : Conn → Option String) (now : Int) (pool : PgPool β) (w : World)
    (hwf : pool.WellFormed) (hs : pool.State = Success) (c : Conn)
    (rest : List (Option Conn)) (hbuf : pool.conn.buf = some c :: rest)
    (hpass : (B.Ready pool.cb).1 = true)
    (htime : pool.Configs.TimeOut = 0 ∨ (w.nextTook : Int) < pool.Configs.TimeOut) :
    ∃ pool1 w1,
      Execute B provider callback now pool w = .ok (callback c, pool1, w1)
      ∧ w1.invoked = w.invoked ++ [c]
      ∧ pool1.conn.buf = rest ++ [some c]
      ∧ pool1.conn.buf.length = pool.conn.buf.length := by
  obtain ⟨pool1, w1, h, hi, hb⟩ :=
    Execute_live_branch B provider callback now pool w hs c rest hbuf hwf.chanOpen hwf.room
      hpass htime
  refine ⟨pool1, w1, h, hi, hb, ?_⟩
  rw [hb, hbuf]
  simp

/-- C5, an instance: a pool of two handles, a timeout of one second, and a
callback that fails at once. -/
theorem Execute_ready_runs_callback_witness :
    readyPool.WellFormed ∧ readyPool.State = Success
    ∧ readyPool.conn.buf = some 0 :: [some 1]
    ∧ (rateBreaker.Ready readyPool.cb).1 = true
    ∧ (World.init.nextTook : Int) < readyPool.Configs.TimeOut
    ∧ ∃ pool1 w1,
      Execute rateBreaker goodProvider (fun _ => some "query failed") 100 readyPool World.init
        = .ok (some "query failed", pool1, w1)
      ∧ w1.invoked = World.init.invoked ++ [0]
      ∧ pool1.conn.buf = [some 1] ++ [some 0]
      ∧ pool1.conn.buf.length = readyPool.conn.buf.length :=
  ⟨readyPool_wellFormed, rfl, rfl, rfl, by decide,
    Execute_ready_runs_callback rateBreaker goodProvider (fun _ => some "query failed") 100
      readyPool World.init readyPool_wellFormed rfl 0 [some 1] rfl rfl (Or.inr (by decide))⟩

/-- C6 (the code departs from the claim): on the pool of three nil slots in
status `Success`, `Execute` reports one failure to the breaker and returns the
error "empty connection", and the nil slot is not sent back: two slots remain
in the channel of a pool of size 3, with nothing checked out. -/
theorem Execute_nil_slot_is_lost :
    ∃ pool1,
      Execute rateBreaker goodProvider (fun _ => none) 100 nilPool World.init
        = .ok (some "empty connection", pool1, World.init)
      ∧ pool1.cb.failures = nilPool.cb.failures + 1
      ∧ nilPool.conn.buf = [none, none, none]
      ∧ pool1.conn.buf = [none, none]
      ∧ pool1.Configs.Poolsize = 3 :=
  ⟨_, rfl, rfl, rfl, rfl, rfl⟩

/-- C9, refuted as stated: with a cooldown of a second and a half, one second
after the trip the elapsed seconds are fewer than the cooldown, and
`regenerate` is not a no-op: it rebuilds the channel and counts an attempt. -/
theorem regenerate_runs_within_fractional_cooldown :
    diference 101 cooldownPool * Second < cooldownPool.Configs.Regenerate
    ∧ regenerate rateBreaker badProvider 101 cooldownPool World.init
        ≠ .ok (cooldownPool, World.init)
    ∧ ∃ pool1 w1, regenerate rateBreaker badProvider 101 cooldownPool World.init
        = .ok (pool1, w1)
      ∧ cooldownPool.regenTryes = 0 ∧ pool1.regenTryes = 1
      ∧ cooldownPool.conn.buf = [none, none, none] ∧ pool1.conn.buf = [] :=
  ⟨by decide, by decide, _, _, rfl, rfl, rfl, rfl, rfl⟩

/-- C9 (amended): for every pool and every clock reading at which the seconds
elapsed since `trippedAt` are fewer than the cooldown truncated to whole
seconds, `int64(Configs.Regenerate / 1000000000)`, `regenerate` is a no-op: it
returns with the pool and the world unchanged. -/
theorem regenerate_before_cooldown {β : Type} (B : Breaker β) (provider : Provider) (now : Int)
    (pool : PgPool β) (w : World) (h : diference now pool < regentime pool) :
    regenerate B provider now pool w = .ok (pool, w) := by
  unfold regenerate
  rw [if_neg]
  intro hc
  exact absurd hc.1 (not_le.mpr h)

/-- C9, an instance: a cooldown of a second and a half, in the second of the trip. -/
theorem regenerate_before_cooldown_witness :
    diference 100 cooldownPool < regentime cooldownPool
    ∧ regenerate rateBreaker badProvider 100 cooldownPool World.init
        = .ok (cooldownPool, World.init) :=
  ⟨by decide, regenerate_before_cooldown rateBreaker badProvider 100 cooldownPool World.init
    (by decide)⟩

/-- C10 (the code departs from the claim): on a pool in status `Fail` whose
attempt counter is 0 and whose cooldown has elapsed, with the handle 0 in its
channel, `regenerate` rebuilds the channel with the fresh handles 2 and 3 and
closes no handle: the counter is incremented before `clean` tests it, so the
first attempt skips the drain like every later one. -/
theorem regenerate_first_attempt_closes_nothing :
    leakPool.State = Fail ∧ leakPool.regenTryes = 0
    ∧ diference 103 leakPool ≥ regentime leakPool
    ∧ leakPool.conn.buf = [some 0, none]
    ∧ ∃ pool1 w1, regenerate rateBreaker flakyProvider 103 leakPool World.two = .ok (pool1, w1)
      ∧ pool1.State = Success ∧ pool1.conn.buf = [some 2, some 3] ∧ w1.closedConns = [] :=
  ⟨rfl, rfl, by decide, rfl, _, _, rfl, rfl, rfl, rfl⟩

end Gopgsql
